import Mathlib

/-!
Verification of the `dba_to_ngdac_profile_nc` orchestrator script
(`src/scripts/dba_to_ngdac_profile_nc.py`) of the gncutils repository.

The script's `main` is embedded shallowly.  Numeric sensor values are
modelled as `Option ℚ` where `none` plays the role of IEEE NaN (the claims
under scrutiny depend only on NaN-propagation and NaN-ignoring means, not on
rounding of binary floating point).  The filesystem is modelled as a partial
map from paths to permission modes; paths are split by constructor into the
temporary staging directory (created by `tempfile.mkdtemp`) and the permanent
output directory, which are disjoint on disk.  Library calls that live
outside the repository's `src/` tree (`gncutils.*` readers, validators, the
NetCDF writer's internals and the CTD physics) are supplied as environment
parameters or modelled from the spec, as indicated by the doc comment of
each such definition.  The run records an event trace of every filesystem
side effect so that temporal claims (staged write then atomic publish,
permission transitions) can be stated as trace properties.
-/

/-- A sensor value: `none` models IEEE NaN, `some q` a finite reading. -/
abbrev Val := Option ℚ

/-- `numpy` semantics of `a <= b`: any comparison with NaN is false. -/
def vle (a b : Val) : Bool :=
  match a, b with
  | some x, some y => decide (x ≤ y)
  | _, _ => false

/-- `np.isnan` on a modelled value. -/
def isNaNv (a : Val) : Bool := a.isNone

/-- `np.nanmean`: mean of the non-NaN entries, NaN when there are none. -/
def nanmean (xs : List Val) : Val :=
  let vs := xs.filterMap id
  if vs.isEmpty then none else some (vs.sum / (vs.length : ℚ))

/-- Python `int(...)` on a float: truncation toward zero. -/
def truncQ (q : ℚ) : Int := Int.tdiv q.num (q.den : Int)

/-- Zero-padded two-digit decimal rendering (strftime field). -/
def pad2 (n : Nat) : String :=
  if n < 10 then "0" ++ toString n else toString n

/-- Zero-padded four-digit decimal rendering (strftime `%Y`). -/
def pad4 (n : Int) : String :=
  let m := n.toNat
  if m < 10 then "000" ++ toString m
  else if m < 100 then "00" ++ toString m
  else if m < 1000 then "0" ++ toString m
  else toString m

/-- Proleptic Gregorian civil date from days since the Unix epoch
(the standard era-based conversion used by `datetime.utcfromtimestamp`). -/
def civilFromDays (z0 : Int) : Int × Nat × Nat :=
  let z := z0 + 719468
  let era := z.fdiv 146097
  let doe := (z - era * 146097).toNat
  let yoe := (doe - doe / 1460 + doe / 36524 - doe / 146096) / 365
  let y : Int := (yoe : Int) + era * 400
  let doy := doe - (365 * yoe + yoe / 4 - yoe / 100)
  let mp := (5 * doy + 2) / 153
  let d := doy - (153 * mp + 2) / 5 + 1
  let m : Nat := if mp < 10 then mp + 3 else mp - 9
  (if m ≤ 2 then y + 1 else y, m, d)

/-- `datetime.datetime.utcfromtimestamp(q).strftime('%Y%m%dT%H%M%SZ')`:
whole-second UTC timestamp rendering of a mean epoch value. -/
def tsToStr (q : ℚ) : String :=
  let z : Int := q.floor
  let days : Int := z.fdiv 86400
  let sod : Nat := (z - days * 86400).toNat
  let ymd := civilFromDays days
  pad4 ymd.1 ++ pad2 ymd.2.1 ++ pad2 ymd.2.2 ++ "T" ++
    pad2 (sod / 3600) ++ pad2 (sod % 3600 / 60) ++ pad2 (sod % 60) ++ "Z"

/-- `os.path.join` for a directory and a relative file name. -/
def joinPath (dir file : String) : String :=
  if dir = "" then file
  else if dir.data.getLast? = some '/' then dir ++ file
  else dir ++ "/" ++ file

/-- A path on disk: either inside the temporary staging directory made by
`tempfile.mkdtemp` (disjoint from the output directory) or a permanent
path under the output directory. -/
inductive FPath where
  | tmp (name : String)
  | out (name : String)
deriving DecidableEq

/-- Is this a staging-directory path? -/
def FPath.isTmp : FPath → Bool
  | .tmp _ => true
  | .out _ => false

/-- Is this a permanent output path? -/
def FPath.isOut : FPath → Bool
  | .tmp _ => false
  | .out _ => true

/-- The filesystem: a partial map from paths to permission modes. -/
abbrev FS := FPath → Option Nat

/-- Point update of the filesystem (`none` deletes the file). -/
def fsUpdate (fs : FS) (p : FPath) (v : Option Nat) : FS :=
  fun q => if q = p then v else fs q

/-- Filesystem side-effect events recorded by the run, in program order. -/
inductive Ev where
  | mkstemp (p : FPath) (mode : Nat)
  | initTry (p : FPath) (ok : Bool)
  | openTry (p : FPath) (ok : Bool)
  | insertVar (p : FPath) (name : String) (vals : List Val)
  | finish (p : FPath) (ok : Bool) (id : Int) (times : List Val)
  | move (src dst : FPath)
  | chmod (p : FPath) (mode : Nat)
  | unlink (p : FPath)
deriving DecidableEq

/-- Descriptor of a successfully finalized and placed artifact. -/
structure FinRec where
  outPath : String
  meanEpoch : ℚ
  ext : String
  id : Int
  times : List Val
deriving DecidableEq

/-- Observable state threaded through the run: filesystem, `mkstemp` name
counter, the writer's current profile id, the script's `output_nc_files`
list, the event trace, placed-artifact descriptors, and whether an uncaught
exception has been raised. -/
structure Obs where
  fs : FS
  counter : Nat
  profileId : Int
  outputs : List String
  trace : List Ev
  finished : List FinRec
  crashed : Bool

/-- The script's loop pattern: fold a step function over a list of work
items, accumulating the diagnostics logged by each step. -/
def wFold {γ : Type} (g : Obs → γ → Obs × List String)
    (st : Obs × List String) (l : List γ) : Obs × List String :=
  l.foldl (fun st x => ((g st.1 x).1, st.2 ++ (g st.1 x).2)) st

/-- The observable-state component of `wFold` (diagnostics are write-only,
so the state evolution does not depend on them). -/
def oFold {γ : Type} (g : Obs → γ → Obs × List String)
    (obs : Obs) (l : List γ) : Obs :=
  l.foldl (fun o x => (g o x).1) obs

/-- The CTD physics library (`gncutils.ctd`), not under `src/`.
Modelled from the spec: §4.3 describes the three derived quantities as
elementwise array functions of conductivity/temperature/pressure/position;
the claims here depend only on that elementwise shape, so each is an
arbitrary per-element function. -/
structure Physics where
  sal : Val → Val → Val → Val
  dens : Val → Val → Val → Val → Val → Val → Val
  depth : Val → Val → Val

/-- Per-profile writer outcomes: a profile interval produced by
`find_profiles` together with the success or failure of each fallible
external call made while writing that profile's file. -/
structure PItv where
  times : List Val
  initOk : Bool
  openOk : Bool
  finishOk : Bool
  moveOk : Bool

/-- One input dba file together with the outcomes of the external library
calls made for it (`create_llat_dba_reader`, `slice_sensor_data`,
`find_profiles`), which are not part of `src/`. -/
structure DbaEnv where
  path : String
  isfile : Bool
  rows : List (List Val)
  sensors : List String
  ext : String
  sliceOk : Bool
  findProfiles : Except String (List PItv)

/-- Command-line arguments of `main` together with the `os.path.isdir`
answers for the two directory arguments. -/
structure Args where
  configIsDir : Bool
  outputIsDir : Bool
  outputPath : String
  dbaFiles : List DbaEnv
  startProfileId : Int
  clobber : Bool
  debug : Bool
  ctdPfx : String

/-- Writer/configuration environment: results of the sensor-definition
validators, the deployment's glider attribute, whether the final
`shutil.rmtree` succeeds, the pre-existing files of the output directory,
and the physics library. -/
structure WEnv where
  ctdValid : Bool
  ngdacValid : Bool
  glider : String
  rmtreeOk : Bool
  initFs : String → Option Nat
  phys : Physics
  writerRepr : String

/-- `list.index`-style first index of an element. -/
def idxOf? (s : String) : List String → Option Nat
  | [] => none
  | x :: xs => if x = s then some 0 else (idxOf? s xs).map (· + 1)

/-- The `LLAT_SENSORS` constant of `gncutils.constants`, not under `src/`.
Modelled from the spec: the script's comment (lines 110-113) and the column
uses `ctd_data[:, 0..3]`, `[:, 5]`, `[:, 6]` fix the order time, pressure,
latitude, longitude, depth. -/
def llatSensors : List String :=
  ["llat_time", "llat_pressure", "llat_latitude", "llat_longitude", "llat_depth"]

/-- The CTD sensor list built at lines 37-39 of the script:
`LLAT_SENSORS + [pfx_water_cond, pfx_water_temp]`. -/
def ctdSensorList (pfx : String) : List String :=
  llatSensors ++ [pfx ++ "_water_cond", pfx ++ "_water_temp"]

/-- `gncutils.yo.slice_sensor_data`, not under `src/`.  Modelled from the
spec: §4.1 — a dense matrix whose columns correspond positionally to the
requested sensor names, rows aligned with the source frame, missing data
represented as NaN. -/
def sliceSensorData (sensors names : List String) (rows : List (List Val)) :
    List (List Val) :=
  rows.map fun r =>
    names.map fun n =>
      match idxOf? n sensors with
      | some i => r.getD i none
      | none => none

/-- The sensor list used for the profile-indexing `yo` (default sensors of
`slice_sensor_data`).  Modelled from the spec: the yo is the depth-like
signal for segmentation, i.e. timestamp and depth. -/
def yoSensors : List String := ["llat_time", "llat_depth"]

/-- Column `k` of a sliced matrix. -/
def colVals (m : List (List Val)) (k : Nat) : List Val :=
  m.map fun r => r.getD k none

/-- `calculate_practical_salinity(ctd[:,5], ctd[:,6], ctd[:,1])` on one row
(line 128 of the script). -/
def salRow (phys : Physics) (c : List Val) : Val :=
  phys.sal (c.getD 5 none) (c.getD 6 none) (c.getD 1 none)

/-- `calculate_density(ctd[:,0], ctd[:,5], ctd[:,1], prac_sal, mean_lat,
mean_lon)` on one row (line 134 of the script). -/
def densRow (phys : Physics) (c : List Val) (s meanLat meanLon : Val) : Val :=
  phys.dens (c.getD 0 none) (c.getD 5 none) (c.getD 1 none) s meanLat meanLon

/-- `calculate_depth(ctd[:,1], mean_lat)` on one row (line 141). -/
def depthRow (phys : Physics) (c : List Val) (meanLat : Val) : Val :=
  phys.depth (c.getD 1 none) meanLat

/-- The derived-variable merge, lines 127-141 of the script: append a
practical-salinity column, append a density column, then overwrite the
existing `llat_depth` column in place with depth recomputed from pressure.
Returns `none` when `llat_depth` is absent (in Python, `.index` raises an
uncaught `ValueError`). -/
def addDerived (phys : Physics) (sensors : List String)
    (rows ctd : List (List Val)) (meanLat meanLon : Val) :
    Option (List String × List (List Val)) :=
  let sal := ctd.map (salRow phys)
  let rows1 := List.zipWith (fun r v => r ++ [v]) rows sal
  let sensors1 := sensors ++ ["salinity"]
  let dens := List.zipWith (fun c s => densRow phys c s meanLat meanLon) ctd sal
  let rows2 := List.zipWith (fun r v => r ++ [v]) rows1 dens
  let sensors2 := sensors1 ++ ["density"]
  match idxOf? "llat_depth" sensors2 with
  | none => none
  | some zi =>
    let dep := ctd.map fun c => depthRow phys c meanLat
    some (sensors2, List.zipWith (fun r v => r.set zi v) rows2 dep)

/-- Context for processing the profiles of one dba file. -/
structure PCtx where
  startProfileId : Int
  clobber : Bool
  outputPath : String
  glider : String
  ext : String
  sensors : List String
  rows : List (List Val)
  ts : List Val

/-- Row indices selected for a profile, line 153 of the script:
`np.flatnonzero(np.logical_and(ts >= p0, ts <= p1))` — both endpoints
inclusive, NaN comparisons false. -/
def pInds (ts : List Val) (p0 p1 : Val) : List Nat :=
  (List.range ts.length).filter fun i =>
    vle p0 (ts.getD i none) && vle (ts.getD i none) p1

/-- `<glider>-<meantime>-<ext>-profile`, lines 168-170 of the script. -/
def profFileBase (c : PCtx) (mq : ℚ) : String :=
  c.glider ++ "-" ++ tsToStr mq ++ "-" ++ c.ext ++ "-profile"

/-- The permanent output path of a profile, line 175 of the script. -/
def profOutName (c : PCtx) (mq : ℚ) : String :=
  joinPath c.outputPath (profFileBase c mq ++ ".nc")

/-- The per-sensor `insert_var_data` calls of lines 216-221: one insertion
per sensor column, each carrying the rows selected by `pInds`. -/
def insertBlock (c : PCtx) (tmpP : FPath) (pinds : List Nat) : List Ev :=
  (List.range c.sensors.length).map fun v =>
    Ev.insertVar tmpP (c.sensors.getD v "")
      (pinds.map fun i => (c.rows.getD i []).getD v none)

/-- Processing of one profile interval, lines 146-234 of the script.
Returns the new observable state and the diagnostics logged during this
iteration.  `finish_nc` is modelled from the spec (§4.4): it records the
writer's current profile id into the file, increments the writer's counter
and reports success or failure; the script-side id assignment of lines
163-164 happens exactly when `start_profile_id < 1`.  Note line 234 of the
source appends `out_nc_file` to `output_nc_files` even when `finish_nc`
returned a falsy result, because it sits outside the `if nc_file:` block;
this embedding reproduces that. -/
def stepProfC (c : PCtx) (obs : Obs) (itv : PItv) : Obs × List String :=
  match nanmean itv.times with
  | none => (obs, ["Profile mean timestamp is Nan"])
  | some mq =>
    let pid := if c.startProfileId < 1 then truncQ mq else obs.profileId
    let tmpP := FPath.tmp (profFileBase c mq ++ "-" ++ toString obs.counter ++ ".nc")
    let outName := profOutName c mq
    let outP := FPath.out outName
    let fs1 := fsUpdate obs.fs tmpP (some 384)
    let ex := (fs1 outP).isSome
    if ex && !c.clobber then
      ({ obs with profileId := pid, counter := obs.counter + 1, fs := fs1,
                  trace := obs.trace ++ [Ev.mkstemp tmpP 384] },
       ["Skipping existing NetCDF: " ++ outName])
    else
      let clobMsg := if ex then ["Clobbering existing NetCDF: " ++ outName] else []
      if !itv.initOk then
        ({ obs with profileId := pid, counter := obs.counter + 1, fs := fs1,
                    trace := obs.trace ++ [Ev.mkstemp tmpP 384, Ev.initTry tmpP false] },
         clobMsg ++ ["Error initializing " ++ outName])
      else if !itv.openOk then
        ({ obs with profileId := pid, counter := obs.counter + 1,
                    fs := fsUpdate fs1 tmpP none,
                    trace := obs.trace ++
                      [Ev.mkstemp tmpP 384, Ev.initTry tmpP true,
                       Ev.openTry tmpP false, Ev.unlink tmpP] },
         clobMsg ++ ["Error opening " ++ outName])
      else
        let pinds := pInds c.ts (itv.times.headD none) (itv.times.getLastD none)
        let preTrace := obs.trace ++
          ([Ev.mkstemp tmpP 384, Ev.initTry tmpP true, Ev.openTry tmpP true] ++
           (insertBlock c tmpP pinds ++
            [Ev.finish tmpP itv.finishOk pid itv.times]))
        if !itv.finishOk then
          ({ obs with profileId := pid + 1, counter := obs.counter + 1, fs := fs1,
                      trace := preTrace, outputs := obs.outputs ++ [outName] },
           clobMsg)
        else if !itv.moveOk then
          ({ obs with profileId := pid + 1, counter := obs.counter + 1, fs := fs1,
                      trace := preTrace },
           clobMsg ++ ["Error moving temp NetCDF file " ++ outName])
        else
          ({ obs with profileId := pid + 1, counter := obs.counter + 1,
                      fs := fsUpdate (fsUpdate fs1 tmpP none) outP (some 493),
                      trace := preTrace ++ [Ev.move tmpP outP, Ev.chmod outP 493],
                      outputs := obs.outputs ++ [outName],
                      finished := obs.finished ++ [⟨outName, mq, c.ext, pid, itv.times⟩] },
           clobMsg)

/-- Processing of one input dba file, lines 82-236 of the script: skip
checks in source order, the derived-variable merge, then one
`stepProfC` per profile interval. -/
def stepDbaC (a : Args) (w : WEnv) (obs : Obs) (d : DbaEnv) : Obs × List String :=
  if obs.crashed then (obs, [])
  else if !d.isfile then (obs, ["Invalid dba file specified: " ++ d.path])
  else if d.rows.isEmpty then (obs, ["Skipping empty dba file: " ++ d.path])
  else
    let yo := sliceSensorData d.sensors yoSensors d.rows
    if !d.sliceOk then (obs, [])
    else
      match d.findProfiles with
      | Except.error msg => (obs, [d.path ++ ": " ++ msg])
      | Except.ok profileTimes =>
        if profileTimes.isEmpty then (obs, ["No profiles indexed: " ++ d.path])
        else
          let ctd := sliceSensorData d.sensors (ctdSensorList a.ctdPfx) d.rows
          if (colVals ctd 2).all isNaNv then
            (obs, ["dba contains no valid llat_latitude values",
                   "Skipping dba: " ++ d.path])
          else if (colVals ctd 3).all isNaNv then
            (obs, ["dba contains no valid llat_longitude values",
                   "Skipping dba: " ++ d.path])
          else
            let meanLat := nanmean (colVals ctd 2)
            let meanLon := nanmean (colVals ctd 3)
            match addDerived w.phys d.sensors d.rows ctd meanLat meanLon with
            | none => ({ obs with crashed := true }, [])
            | some sr =>
              let c : PCtx :=
                { startProfileId := a.startProfileId, clobber := a.clobber,
                  outputPath := a.outputPath, glider := w.glider, ext := d.ext,
                  sensors := sr.1, rows := sr.2, ts := colVals yo 0 }
              wFold (stepProfC c) (obs, []) profileTimes

/-- Result of the final loop of lines 246-249: `os.chmod(f, 0o664)` then
print, per recorded output file; `chmod` on a missing path raises an
uncaught `FileNotFoundError`, which aborts the loop. -/
structure FinalRes where
  fs : FS
  events : List Ev
  printed : List String
  crashed : Bool

/-- `shutil.rmtree(tmp_dir)` (line 241): removal of the staging directory
and everything inside it. -/
def tmpStrip (fs : FS) : FS := fun p =>
  match p with
  | FPath.tmp _ => none
  | FPath.out s => fs (FPath.out s)

/-- The final output loop, lines 246-249 of the script. -/
def finalLoop (fs : FS) : List String → FinalRes
  | [] => ⟨fs, [], [], false⟩
  | f :: rest =>
    match fs (FPath.out f) with
    | none => ⟨fs, [], [], true⟩
    | some _ =>
      let fs1 := fsUpdate fs (FPath.out f) (some 436)
      let r := finalLoop fs1 rest
      ⟨r.fs, Ev.chmod (FPath.out f) 436 :: r.events, f :: r.printed, r.crashed⟩

/-- How a run of `main` terminates: an explicit `return` with an exit code,
or an uncaught exception. -/
inductive Outcome where
  | exit (code : Nat)
  | crash
deriving DecidableEq

/-- The observable result of one run of `main`. -/
structure RunResult where
  outcome : Outcome
  fs : FS
  trace : List Ev
  stdout : List String
  log : List String
  outputs : List String
  finished : List FinRec

/-- Initial observable state: the output directory holds the pre-existing
files, the fresh staging directory is empty, the writer is constructed with
`profile_id = start_profile_id` (line 58). -/
def initialObs (a : Args) (w : WEnv) : Obs :=
  { fs := fun p => match p with
      | FPath.out s => w.initFs s
      | FPath.tmp _ => none,
    counter := 0, profileId := a.startProfileId, outputs := [], trace := [],
    finished := [], crashed := false }

/-- The observable state after the per-dba loop of `main`. -/
def runObs (a : Args) (w : WEnv) : Obs :=
  oFold (stepDbaC a w) (initialObs a w) a.dbaFiles

/-- The diagnostics logged by the per-dba loop of `main` (write-only: they
do not influence the observable state, see `wFold_fst`). -/
def runLog (a : Args) (w : WEnv) : List String :=
  (wFold (stepDbaC a w) (initialObs a w, []) a.dbaFiles).2

/-- The embedded `main` (lines 19-251 of the script): validation and early
exits, the per-dba loop, removal of the staging directory, then the final
chmod-and-print loop. -/
def mainRun (a : Args) (w : WEnv) : RunResult :=
  let obs0 := initialObs a w
  if !a.configIsDir then
    ⟨.exit 1, obs0.fs, [], [], ["Invalid configuration directory"], [], []⟩
  else if !a.outputIsDir then
    ⟨.exit 1, obs0.fs, [], [], ["Invalid output_path"], [], []⟩
  else if a.dbaFiles.isEmpty then
    ⟨.exit 1, obs0.fs, [], [], ["No Slocum dba files specified"], [], []⟩
  else if !w.ctdValid then
    ⟨.exit 1, obs0.fs, [], [], ["Bad sensor definitions"], [], []⟩
  else if !w.ngdacValid then
    ⟨.exit 1, obs0.fs, [], [], ["Bad sensor definitions"], [], []⟩
  else if a.debug then
    ⟨.exit 0, obs0.fs, [], [w.writerRepr], [], [], []⟩
  else
    let obs1 := runObs a w
    if obs1.crashed then
      ⟨.crash, obs1.fs, obs1.trace, [], runLog a w, obs1.outputs, obs1.finished⟩
    else if !w.rmtreeOk then
      ⟨.exit 1, obs1.fs, obs1.trace, [],
       runLog a w ++ ["Error removing temporary directory"],
       obs1.outputs, obs1.finished⟩
    else
      let r := finalLoop (tmpStrip obs1.fs) obs1.outputs
      ⟨if r.crashed then .crash else .exit 0, r.fs, obs1.trace ++ r.events,
       r.printed, runLog a w, obs1.outputs, obs1.finished⟩

/-- Events admissible under the staged-write / atomic-publish protocol:
files are created, initialized, opened, populated, finalized and unlinked
only inside the staging directory; moves go from the staging directory to
the output directory; chmod is applied only to placed output files. -/
def evOK : Ev → Bool
  | .mkstemp p _ => p.isTmp
  | .initTry p _ => p.isTmp
  | .openTry p _ => p.isTmp
  | .insertVar p _ _ => p.isTmp
  | .finish p _ _ _ => p.isTmp
  | .unlink p => p.isTmp
  | .move src dst => src.isTmp && dst.isOut
  | .chmod p _ => p.isOut

/-- Scan of a trace checking that the source of every `move` has earlier
been finalized successfully (`fin` carries the paths with a successful
`finish` so far). -/
def mjScan (fin : List FPath) : List Ev → Prop
  | [] => True
  | e :: rest =>
    match e with
    | Ev.move src _ => src ∈ fin ∧ mjScan fin rest
    | Ev.finish p ok _ _ => mjScan (if ok then p :: fin else fin) rest
    | _ => mjScan fin rest

/-- The successful-`finish` accumulator produced by scanning a trace. -/
def mjFin (fin : List FPath) : List Ev → List FPath
  | [] => fin
  | e :: rest =>
    mjFin
      (match e with
       | Ev.finish p ok _ _ => if ok then p :: fin else fin
       | _ => fin) rest

/-- Every `move` in the trace is immediately followed by
`chmod dst 0o755` (the permission transition of line 229). -/
def chmodAfterMove : List Ev → Prop
  | [] => True
  | e :: rest =>
    match e with
    | Ev.move _ dst => rest.head? = some (Ev.chmod dst 493) ∧ chmodAfterMove rest
    | _ => chmodAfterMove rest

/-- Is an event anything other than a `move`? -/
def notMove : Ev → Bool
  | .move _ _ => false
  | _ => true

/-- The trace does not end in a dangling `move`. -/
def closedTrace : List Ev → Prop
  | [] => True
  | [e] => notMove e = true
  | _ :: rest => closedTrace rest

/-- The profile ids recorded by the `finish` events of a trace, in order. -/
def finishIds (tr : List Ev) : List Int :=
  tr.filterMap fun e =>
    match e with
    | Ev.finish _ _ id _ => some id
    | _ => none

/-- Every `finish` event of the trace recorded the truncated NaN-ignoring
mean of its own profile interval as the profile id. -/
def finishMeanIds (tr : List Ev) : Prop :=
  ∀ p ok id tv, Ev.finish p ok id tv ∈ tr →
    ∃ q, nanmean tv = some q ∧ id = truncQ q

/-- Is this event a `chmod`? -/
def isChmodEv : Ev → Bool
  | .chmod _ _ => true
  | _ => false

/-- A concrete physics library for evaluating the model on sample inputs. -/
def physX : Physics :=
  { sal := fun _ _ _ => some 1, dens := fun _ _ _ _ _ _ => some 2,
    depth := fun _ _ => some 3 }

/-- A concrete data frame: one row of five cells. -/
def rowsX : List (List Val) :=
  [[some 100, some 1, some 2, some 3, some 4]]

/-- A concrete dba input: one row, one profile interval whose two
timestamps are both 100 s after the epoch, every external call succeeding. -/
def dbaX : DbaEnv :=
  { path := "/in/a.sbd", isfile := true, rows := rowsX,
    sensors := llatSensors, ext := "sbd", sliceOk := true,
    findProfiles := Except.ok [⟨[some 100, some 100], true, true, true, true⟩] }

/-- Concrete command-line arguments: both directories valid, one input
file, no start id, no clobber, no debug. -/
def argsX : Args :=
  { configIsDir := true, outputIsDir := true, outputPath := "/out",
    dbaFiles := [dbaX], startProfileId := 0, clobber := false, debug := false,
    ctdPfx := "sci" }

/-- Concrete writer environment: validators pass, glider `g`, empty output
directory, `rmtree` succeeds. -/
def wX : WEnv :=
  { ctdValid := true, ngdacValid := true, glider := "g", rmtreeOk := true,
    initFs := fun _ => none, phys := physX, writerRepr := "ncw" }

/-- A dba the loop rejects up front: `os.path.isfile` answers false. -/
def dbaBad : DbaEnv := { dbaX with isfile := false }

/-- `dbaX` with a profile whose `finish_nc` returns a falsy result. -/
def dbaF : DbaEnv :=
  { dbaX with
    findProfiles := Except.ok [⟨[some 100, some 100], true, true, false, true⟩] }

/-- Arguments of the clobber scenario: the failing-finish dba with
`--clobber` requested. -/
def argsC2 : Args := { argsX with dbaFiles := [dbaF], clobber := true }

/-- Environment with the destination path already holding a file of mode
0o644 before the run. -/
def wC2 : WEnv :=
  { wX with initFs := fun s =>
      if s = "/out/g-19700101T000140Z-sbd-profile.nc" then some 420 else none }

/-- Arguments of the failing-finish scenario with an empty output
directory. -/
def argsC3 : Args := { argsX with dbaFiles := [dbaF] }

/-- A concrete per-dba profile context. -/
def ctxX : PCtx :=
  { startProfileId := 0, clobber := false, outputPath := "/out", glider := "g",
    ext := "sbd", sensors := ["llat_time"], rows := [[some 100]],
    ts := [some 100] }

/-- A concrete starting observable state: empty filesystem and trace. -/
def obsX : Obs :=
  { fs := fun _ => none, counter := 0, profileId := 0, outputs := [],
    trace := [], finished := [], crashed := false }

/-- A concrete profile interval for which every writer call succeeds. -/
def itvX : PItv := ⟨[some 100, some 100], true, true, true, true⟩

/-- A concrete profile interval whose `init_nc` fails. -/
def itvBad : PItv := ⟨[some 100], false, true, true, true⟩

/-- Events that are neither a `move` nor a `finish` (transparent to the
publication-order predicates). -/
def evPlain : Ev → Bool
  | .move _ _ => false
  | .finish _ _ _ _ => false
  | _ => true

/-- The trace has no dangling trailing `move`. -/
def closedTr (tr : List Ev) : Prop :=
  ∀ src dst, tr.getLast? ≠ some (Ev.move src dst)

/-- Run-wide invariant: the staged-write protocol (all creation and
population events in the staging directory, moves only of successfully
finalized files, each move immediately chmodded, no dangling move), the
publication discipline (output files appear only via moves or pre-exist),
the profile-id policies, and the naming of placed artifacts. -/
structure RunInv (a : Args) (w : WEnv) (obs : Obs) : Prop where
  evok : ∀ e ∈ obs.trace, evOK e = true
  mj : mjScan [] obs.trace
  cam : chmodAfterMove obs.trace
  closed : closedTr obs.trace
  pub : ∀ s, (obs.fs (FPath.out s)).isSome = true →
    (w.initFs s).isSome = true ∨ ∃ src, Ev.move src (FPath.out s) ∈ obs.trace
  meanIds : a.startProfileId < 1 → finishMeanIds obs.trace
  seqIds : 1 ≤ a.startProfileId →
    finishIds obs.trace =
      (List.range (finishIds obs.trace).length).map
        (fun i : Nat => a.startProfileId + (i : Int)) ∧
    obs.profileId = a.startProfileId + ((finishIds obs.trace).length : Int)
  fin8 : ∀ rec ∈ obs.finished,
    rec.outPath = joinPath a.outputPath
      (w.glider ++ "-" ++ tsToStr rec.meanEpoch ++ "-" ++ rec.ext ++ "-profile" ++ ".nc") ∧
    ∃ d ∈ a.dbaFiles, rec.ext = d.ext

/-- The observable effect of a skipped profile: nothing is recorded in
`output_nc_files`, no artifact descriptor is produced, the permanent output
directory is untouched, the appended trace contains no `move` (so nothing
appears at a permanent destination), and a diagnostic is logged. -/
def profSkipped (c : PCtx) (obs : Obs) (itv : PItv) : Prop :=
  (stepProfC c obs itv).1.outputs = obs.outputs ∧
  (stepProfC c obs itv).1.finished = obs.finished ∧
  (∀ s, (stepProfC c obs itv).1.fs (FPath.out s) = obs.fs (FPath.out s)) ∧
  (∃ dl, (stepProfC c obs itv).1.trace = obs.trace ++ dl ∧
     ∀ src dst, Ev.move src dst ∉ dl) ∧
  (stepProfC c obs itv).2 ≠ []

/-- Is this event a variable-data insertion? -/
def isInsertEv : Ev → Bool
  | .insertVar _ _ _ => true
  | _ => false

/-- The per-source skip conditions of claim C5, in the script's order:
input path is not a file, parsed record set empty, `find_profiles` raised
`ValueError`, zero profile intervals, all latitudes NaN, all longitudes
NaN. -/
def badDba (pfx : String) (d : DbaEnv) : Prop :=
  d.isfile = false ∨ d.rows = [] ∨
  (∃ msg, d.findProfiles = Except.error msg) ∨
  d.findProfiles = Except.ok [] ∨
  (colVals (sliceSensorData d.sensors (ctdSensorList pfx) d.rows) 2).all isNaNv = true ∨
  (colVals (sliceSensorData d.sensors (ctdSensorList pfx) d.rows) 3).all isNaNv = true

theorem fsUpdate_eq (fs : FS) (p : FPath) (v : Option Nat) :
    fsUpdate fs p v p = v := by
  simp [fsUpdate]

theorem fsUpdate_ne (fs : FS) (p : FPath) (v : Option Nat) (q : FPath)
    (h : q ≠ p) : fsUpdate fs p v q = fs q := by
  simp [fsUpdate, h]

theorem fsUpdate_out_tmp (fs : FS) (n : String) (v : Option Nat) (s : String) :
    fsUpdate fs (FPath.tmp n) v (FPath.out s) = fs (FPath.out s) := by
  simp [fsUpdate]

theorem fsUpdate_tmp_out (fs : FS) (n : String) (v : Option Nat) (s : String) :
    fsUpdate fs (FPath.out n) v (FPath.tmp s) = fs (FPath.tmp s) := by
  simp [fsUpdate]

/-- Invariance of a predicate under a left fold. -/
theorem foldl_inv {α β : Type _} {P : α → Prop} (f : α → β → α) (l : List β)
    (init : α) (h0 : P init) (hstep : ∀ x ∈ l, ∀ s, P s → P (f s x)) :
    P (l.foldl f init) := by
  induction l generalizing init with
  | nil => exact h0
  | cons x xs ih =>
    exact ih (f init x) (hstep x (by simp) init h0)
      (fun y hy s hs => hstep y (by simp [hy]) s hs)

theorem wFold_fst {γ : Type} (g : Obs → γ → Obs × List String)
    (l : List γ) (obs : Obs) (lg : List String) :
    (wFold g (obs, lg) l).1 = oFold g obs l := by
  induction l generalizing obs lg with
  | nil => rfl
  | cons x xs ih => exact ih _ _

theorem oFold_append {γ : Type} (g : Obs → γ → Obs × List String)
    (l₁ l₂ : List γ) (obs : Obs) :
    oFold g obs (l₁ ++ l₂) = oFold g (oFold g obs l₁) l₂ := by
  simp [oFold, List.foldl_append]

theorem mjScan_mono (fin fin' : List FPath) (tr : List Ev)
    (hsub : ∀ p, p ∈ fin → p ∈ fin') (h : mjScan fin tr) :
    mjScan fin' tr := by
  induction tr generalizing fin fin' with
  | nil => trivial
  | cons e rest ih =>
    cases e with
    | move src dst =>
      simp only [mjScan] at h ⊢
      exact ⟨hsub _ h.1, ih fin fin' hsub h.2⟩
    | finish p ok id tv =>
      simp only [mjScan] at h ⊢
      cases ok with
      | true =>
        simp only [if_pos rfl] at h ⊢
        refine ih _ _ ?_ h
        intro x hx
        rcases List.mem_cons.mp hx with h1 | h2
        · exact List.mem_cons.mpr (Or.inl h1)
        · exact List.mem_cons.mpr (Or.inr (hsub _ h2))
      | false =>
        simp only [Bool.false_eq_true, if_neg] at h ⊢
        exact ih fin fin' hsub h
    | mkstemp p m => exact ih fin fin' hsub h
    | initTry p ok => exact ih fin fin' hsub h
    | openTry p ok => exact ih fin fin' hsub h
    | insertVar p n vs => exact ih fin fin' hsub h
    | chmod p m => exact ih fin fin' hsub h
    | unlink p => exact ih fin fin' hsub h

theorem mjScan_append (fin : List FPath) (t b : List Ev) :
    mjScan fin (t ++ b) ↔ mjScan fin t ∧ mjScan (mjFin fin t) b := by
  induction t generalizing fin with
  | nil => simp [mjScan, mjFin]
  | cons e rest ih =>
    cases e with
    | move src dst =>
      simp only [List.cons_append, mjScan, mjFin, List.append_eq, ih, and_assoc]
    | finish p ok id tv =>
      simp only [List.cons_append, mjScan, mjFin, List.append_eq, ih]
    | mkstemp p m =>
      simpa only [List.cons_append, mjScan, mjFin, List.append_eq] using ih fin
    | initTry p ok =>
      simpa only [List.cons_append, mjScan, mjFin, List.append_eq] using ih fin
    | openTry p ok =>
      simpa only [List.cons_append, mjScan, mjFin, List.append_eq] using ih fin
    | insertVar p n vs =>
      simpa only [List.cons_append, mjScan, mjFin, List.append_eq] using ih fin
    | chmod p m =>
      simpa only [List.cons_append, mjScan, mjFin, List.append_eq] using ih fin
    | unlink p =>
      simpa only [List.cons_append, mjScan, mjFin, List.append_eq] using ih fin

theorem mjScan_plain_append (fin : List FPath) (l rest : List Ev)
    (hl : ∀ e ∈ l, evPlain e = true) :
    mjScan fin (l ++ rest) ↔ mjScan fin rest := by
  induction l with
  | nil => simp
  | cons e es ih =>
    have he : evPlain e = true := hl e (by simp)
    have hes : ∀ x ∈ es, evPlain x = true := fun x hx => hl x (by simp [hx])
    cases e <;> simp only [evPlain] at he <;> try cases he
    all_goals
      simpa only [List.cons_append, mjScan] using ih hes

theorem mjFin_plain (fin : List FPath) (l : List Ev)
    (hl : ∀ e ∈ l, evPlain e = true) : mjFin fin l = fin := by
  induction l generalizing fin with
  | nil => rfl
  | cons e es ih =>
    have he : evPlain e = true := hl e (by simp)
    have hes : ∀ x ∈ es, evPlain x = true := fun x hx => hl x (by simp [hx])
    cases e <;> simp only [evPlain] at he <;> try cases he
    all_goals
      simpa only [mjFin] using ih fin hes

theorem cam_notMove_append (l rest : List Ev)
    (hl : ∀ e ∈ l, notMove e = true) :
    chmodAfterMove (l ++ rest) ↔ chmodAfterMove rest := by
  induction l with
  | nil => simp
  | cons e es ih =>
    have he : notMove e = true := hl e (by simp)
    have hes : ∀ x ∈ es, notMove x = true := fun x hx => hl x (by simp [hx])
    cases e <;> simp only [notMove] at he <;> try cases he
    all_goals
      simpa only [List.cons_append, chmodAfterMove] using ih hes

theorem closedTr_append (t b : List Ev) (ht : closedTr t) (hb : closedTr b) :
    closedTr (t ++ b) := by
  intro src dst h
  rw [List.getLast?_append] at h
  cases hbl : b.getLast? with
  | none => rw [hbl] at h; exact ht src dst h
  | some e => rw [hbl] at h; exact hb src dst (hbl ▸ h)

theorem cam_append (t b : List Ev) (hcl : closedTr t)
    (ht : chmodAfterMove t) (hb : chmodAfterMove b) :
    chmodAfterMove (t ++ b) := by
  induction t with
  | nil => simpa using hb
  | cons e rest ih =>
    have hrest_cl : rest ≠ [] → closedTr rest := by
      intro hne src dst hlast
      refine hcl src dst ?_
      have : (e :: rest).getLast? = rest.getLast?.or (some e) := by
        simpa using (List.getLast?_append : ([e] ++ rest).getLast? = _)
      rw [this, hlast]
      rfl
    cases e with
    | move s d =>
      simp only [chmodAfterMove] at ht
      obtain ⟨hhead, hcam⟩ := ht
      have hne : rest ≠ [] := by
        intro h0
        rw [h0] at hhead
        cases hhead
      simp only [List.cons_append, chmodAfterMove, List.append_eq]
      refine And.intro ?_ ?_
      · rw [List.head?_append, hhead]
        rfl
      · exact ih (hrest_cl hne) hcam
    | finish p ok id tv =>
      simp only [chmodAfterMove] at ht ⊢
      by_cases hne : rest = []
      · subst hne; simpa using hb
      · exact ih (hrest_cl hne) ht
    | mkstemp p m =>
      simp only [chmodAfterMove] at ht ⊢
      by_cases hne : rest = []
      · subst hne; simpa using hb
      · exact ih (hrest_cl hne) ht
    | initTry p ok =>
      simp only [chmodAfterMove] at ht ⊢
      by_cases hne : rest = []
      · subst hne; simpa using hb
      · exact ih (hrest_cl hne) ht
    | openTry p ok =>
      simp only [chmodAfterMove] at ht ⊢
      by_cases hne : rest = []
      · subst hne; simpa using hb
      · exact ih (hrest_cl hne) ht
    | insertVar p n vs =>
      simp only [chmodAfterMove] at ht ⊢
      by_cases hne : rest = []
      · subst hne; simpa using hb
      · exact ih (hrest_cl hne) ht
    | chmod p m =>
      simp only [chmodAfterMove] at ht ⊢
      by_cases hne : rest = []
      · subst hne; simpa using hb
      · exact ih (hrest_cl hne) ht
    | unlink p =>
      simp only [chmodAfterMove] at ht ⊢
      by_cases hne : rest = []
      · subst hne; simpa using hb
      · exact ih (hrest_cl hne) ht

theorem finishIds_append (t b : List Ev) :
    finishIds (t ++ b) = finishIds t ++ finishIds b := by
  simp [finishIds, List.filterMap_append]

theorem insertBlock_plain (c : PCtx) (tmpP : FPath) (pinds : List Nat) :
    ∀ e ∈ insertBlock c tmpP pinds, evPlain e = true := by
  intro e he
  rcases List.mem_map.mp he with ⟨v, _, rfl⟩
  rfl

theorem insertBlock_notMove (c : PCtx) (tmpP : FPath) (pinds : List Nat) :
    ∀ e ∈ insertBlock c tmpP pinds, notMove e = true := by
  intro e he
  rcases List.mem_map.mp he with ⟨v, _, rfl⟩
  rfl

theorem insertBlock_evOK (c : PCtx) (n : String) (pinds : List Nat) :
    ∀ e ∈ insertBlock c (FPath.tmp n) pinds, evOK e = true := by
  intro e he
  rcases List.mem_map.mp he with ⟨v, _, rfl⟩
  rfl

theorem finishIds_insertBlock (c : PCtx) (tmpP : FPath) (pinds : List Nat) :
    finishIds (insertBlock c tmpP pinds) = [] := by
  simp [finishIds, insertBlock, List.filterMap_map, Function.comp]

theorem noFinish_insertBlock (c : PCtx) (tmpP : FPath) (pinds : List Nat) :
    ∀ p ok id tv, Ev.finish p ok id tv ∉ insertBlock c tmpP pinds := by
  intro p ok id tv h
  rcases List.mem_map.mp h with ⟨v, _, hv⟩
  cases hv

/-- One step of the invariant: appending a block of events `dl` together
with compatible state changes preserves `Inv`. -/
theorem RunInv.extend {a : Args} {w : WEnv} {obs : Obs} (h : RunInv a w obs)
    (dl : List Ev) (fs' : FS) (cnt : Nat) (pid' : Int)
    (outs : List String) (fins : List FinRec) (cr : Bool)
    (hevok : ∀ e ∈ dl, evOK e = true)
    (hmj : ∀ fin, mjScan fin dl)
    (hcam : chmodAfterMove dl)
    (hclosed : closedTr dl)
    (hpub : ∀ s, (fs' (FPath.out s)).isSome = true →
      (obs.fs (FPath.out s)).isSome = true ∨
      ∃ src, Ev.move src (FPath.out s) ∈ dl)
    (hmean : a.startProfileId < 1 →
      ∀ p ok id tv, Ev.finish p ok id tv ∈ dl →
        ∃ q, nanmean tv = some q ∧ id = truncQ q)
    (hseq : 1 ≤ a.startProfileId →
      (finishIds dl = [] ∧ pid' = obs.profileId) ∨
      (finishIds dl = [obs.profileId] ∧ pid' = obs.profileId + 1))
    (hfin : fins = obs.finished ∨
      ∃ rec, fins = obs.finished ++ [rec] ∧
        rec.outPath = joinPath a.outputPath
          (w.glider ++ "-" ++ tsToStr rec.meanEpoch ++ "-" ++ rec.ext ++ "-profile" ++ ".nc") ∧
        ∃ d ∈ a.dbaFiles, rec.ext = d.ext) :
    RunInv a w
      { fs := fs', counter := cnt, profileId := pid', outputs := outs,
        trace := obs.trace ++ dl, finished := fins, crashed := cr } := by
  refine ⟨?_, ?_, ?_, ?_, ?_, ?_, ?_, ?_⟩
  · intro e hedl
    rcases List.mem_append.mp hedl with h1 | h2
    · exact h.evok e h1
    · exact hevok e h2
  · exact (mjScan_append [] obs.trace dl).mpr ⟨h.mj, hmj _⟩
  · exact cam_append obs.trace dl h.closed h.cam hcam
  · exact closedTr_append obs.trace dl h.closed hclosed
  · intro s hsome
    rcases hpub s hsome with h1 | ⟨src, h2⟩
    · rcases h.pub s h1 with ha | ⟨src, hb⟩
      · exact Or.inl ha
      · exact Or.inr ⟨src, List.mem_append.mpr (Or.inl hb)⟩
    · exact Or.inr ⟨src, List.mem_append.mpr (Or.inr h2)⟩
  · intro hlt p ok id tv hmem
    rcases List.mem_append.mp hmem with h1 | h2
    · exact h.meanIds hlt p ok id tv h1
    · exact hmean hlt p ok id tv h2
  · intro hge
    obtain ⟨hids, hpid⟩ := h.seqIds hge
    rcases hseq hge with ⟨hdl, hpid'⟩ | ⟨hdl, hpid'⟩
    · constructor
      · simpa [finishIds_append, hdl] using hids
      · simpa [finishIds_append, hdl, hpid'] using hpid
    · have hnew : finishIds (obs.trace ++ dl) =
          (List.range ((finishIds obs.trace).length + 1)).map
            (fun i : Nat => a.startProfileId + (i : Int)) := by
        rw [finishIds_append, hdl, hpid, List.range_succ, List.map_append, hids]
        simp
      constructor
      · rw [hnew]
        simp
      · rw [hpid', hpid, hnew]
        simp
        ring
  · intro rec hrec
    rcases hfin with h1 | ⟨rec', h2, h3, h4⟩
    · exact h.fin8 rec (h1 ▸ hrec)
    · rw [h2] at hrec
      rcases List.mem_append.mp hrec with h5 | h6
      · exact h.fin8 rec h5
      · rcases List.mem_singleton.mp h6 with rfl
        exact ⟨h3, h4⟩

/-- Invariant preservation: profile skipped after `mkstemp` (pre-existing
output without clobber). -/
theorem RunInv.skipA {a : Args} {w : WEnv} {obs : Obs} (h : RunInv a w obs)
    (n : String) (pid : Int) (cnt : Nat)
    (hpid : 1 ≤ a.startProfileId → pid = obs.profileId) :
    RunInv a w
      { fs := fsUpdate obs.fs (FPath.tmp n) (some 384), counter := cnt,
        profileId := pid, outputs := obs.outputs,
        trace := obs.trace ++ [Ev.mkstemp (FPath.tmp n) 384],
        finished := obs.finished, crashed := obs.crashed } := by
  refine h.extend _ _ _ _ _ _ _ ?_ ?_ ?_ ?_ ?_ ?_ ?_ ?_
  · intro e he
    rcases List.mem_singleton.mp he with rfl
    rfl
  · intro fin
    simp [mjScan]
  · simp [chmodAfterMove]
  · intro s d hc
    simp at hc
  · intro s hs2
    rw [fsUpdate_out_tmp] at hs2
    exact Or.inl hs2
  · intro _ p ok id tv hmem
    simp at hmem
  · intro hge
    exact Or.inl ⟨rfl, hpid hge⟩
  · exact Or.inl rfl

/-- Invariant preservation: profile skipped because `init_nc` failed. -/
theorem RunInv.skipB {a : Args} {w : WEnv} {obs : Obs} (h : RunInv a w obs)
    (n : String) (pid : Int) (cnt : Nat)
    (hpid : 1 ≤ a.startProfileId → pid = obs.profileId) :
    RunInv a w
      { fs := fsUpdate obs.fs (FPath.tmp n) (some 384), counter := cnt,
        profileId := pid, outputs := obs.outputs,
        trace := obs.trace ++
          [Ev.mkstemp (FPath.tmp n) 384, Ev.initTry (FPath.tmp n) false],
        finished := obs.finished, crashed := obs.crashed } := by
  refine h.extend _ _ _ _ _ _ _ ?_ ?_ ?_ ?_ ?_ ?_ ?_ ?_
  · intro e he
    simp at he
    rcases he with rfl | rfl <;> rfl
  · intro fin
    simp [mjScan]
  · simp [chmodAfterMove]
  · intro s d hc
    simp at hc
  · intro s hs2
    rw [fsUpdate_out_tmp] at hs2
    exact Or.inl hs2
  · intro _ p ok id tv hmem
    simp at hmem
  · intro hge
    exact Or.inl ⟨rfl, hpid hge⟩
  · exact Or.inl rfl

/-- Invariant preservation: profile skipped because `open_nc` failed (the
staging file is unlinked). -/
theorem RunInv.skipC {a : Args} {w : WEnv} {obs : Obs} (h : RunInv a w obs)
    (n : String) (pid : Int) (cnt : Nat)
    (hpid : 1 ≤ a.startProfileId → pid = obs.profileId) :
    RunInv a w
      { fs := fsUpdate (fsUpdate obs.fs (FPath.tmp n) (some 384)) (FPath.tmp n) none,
        counter := cnt,
        profileId := pid, outputs := obs.outputs,
        trace := obs.trace ++
          [Ev.mkstemp (FPath.tmp n) 384, Ev.initTry (FPath.tmp n) true,
           Ev.openTry (FPath.tmp n) false, Ev.unlink (FPath.tmp n)],
        finished := obs.finished, crashed := obs.crashed } := by
  refine h.extend _ _ _ _ _ _ _ ?_ ?_ ?_ ?_ ?_ ?_ ?_ ?_
  · intro e he
    simp at he
    rcases he with rfl | rfl | rfl | rfl <;> rfl
  · intro fin
    simp [mjScan]
  · simp [chmodAfterMove]
  · intro s d hc
    simp at hc
  · intro s hs2
    rw [fsUpdate_out_tmp, fsUpdate_out_tmp] at hs2
    exact Or.inl hs2
  · intro _ p ok id tv hmem
    simp at hmem
  · intro hge
    exact Or.inl ⟨rfl, hpid hge⟩
  · exact Or.inl rfl

/-- Invariant preservation: profile written and finalized but not placed
(either `finish_nc` returned a falsy result or `shutil.move` failed). -/
theorem RunInv.finishA {a : Args} {w : WEnv} {obs : Obs} (h : RunInv a w obs)
    (c : PCtx) (n : String) (pinds : List Nat) (fok : Bool) (tv : List Val)
    (mq : ℚ) (pid : Int) (cnt : Nat) (outs : List String)
    (hm : nanmean tv = some mq)
    (hpid1 : a.startProfileId < 1 → pid = truncQ mq)
    (hpid2 : 1 ≤ a.startProfileId → pid = obs.profileId) :
    RunInv a w
      { fs := fsUpdate obs.fs (FPath.tmp n) (some 384), counter := cnt,
        profileId := pid + 1, outputs := outs,
        trace := obs.trace ++
          ([Ev.mkstemp (FPath.tmp n) 384, Ev.initTry (FPath.tmp n) true,
            Ev.openTry (FPath.tmp n) true] ++
           (insertBlock c (FPath.tmp n) pinds ++ [Ev.finish (FPath.tmp n) fok pid tv])),
        finished := obs.finished, crashed := obs.crashed } := by
  refine h.extend _ _ _ _ _ _ _ ?_ ?_ ?_ ?_ ?_ ?_ ?_ ?_
  · intro e he
    rcases List.mem_append.mp he with h1 | h2
    · simp at h1
      rcases h1 with rfl | rfl | rfl <;> rfl
    · rcases List.mem_append.mp h2 with h3 | h4
      · exact insertBlock_evOK c n pinds e h3
      · rcases List.mem_singleton.mp h4 with rfl
        rfl
  · intro fin
    simp only [List.cons_append, List.nil_append, List.append_eq, mjScan]
    rw [mjScan_plain_append _ _ _ (insertBlock_plain c (FPath.tmp n) pinds)]
    simp [mjScan]
  · simp only [List.cons_append, List.nil_append, chmodAfterMove]
    show chmodAfterMove
      (insertBlock c (FPath.tmp n) pinds ++ [Ev.finish (FPath.tmp n) fok pid tv])
    rw [cam_notMove_append _ _ (insertBlock_notMove c (FPath.tmp n) pinds)]
    simp [chmodAfterMove]
  · intro s d hc
    rw [List.getLast?_append, List.getLast?_append] at hc
    simp at hc
  · intro s hs2
    rw [fsUpdate_out_tmp] at hs2
    exact Or.inl hs2
  · intro hlt p ok id tv2 hmem
    rcases List.mem_append.mp hmem with h1 | h2
    · simp at h1
    · rcases List.mem_append.mp h2 with h3 | h4
      · exact absurd h3 (noFinish_insertBlock c (FPath.tmp n) pinds p ok id tv2)
      · rcases List.mem_singleton.mp h4 with h5
        injection h5 with e1 e2 e3 e4
        subst e3
        subst e4
        exact ⟨mq, hm, hpid1 hlt⟩
  · intro hge
    refine Or.inr ⟨?_, by rw [hpid2 hge]⟩
    rw [finishIds_append, finishIds_append, finishIds_insertBlock]
    simp [finishIds, hpid2 hge]
  · exact Or.inl rfl

/-- Invariant preservation: profile finalized successfully, moved to its
permanent path and chmodded 0o755. -/
theorem RunInv.placedE {a : Args} {w : WEnv} {obs : Obs} (h : RunInv a w obs)
    (c : PCtx)
    (ho : c.outputPath = a.outputPath)
    (hg : c.glider = w.glider)
    (he : ∃ d ∈ a.dbaFiles, c.ext = d.ext)
    (n : String) (pinds : List Nat) (fok : Bool) (tv : List Val)
    (mq : ℚ) (pid : Int) (cnt : Nat) (outs : List String)
    (hm : nanmean tv = some mq)
    (hfok : fok = true)
    (hpid1 : a.startProfileId < 1 → pid = truncQ mq)
    (hpid2 : 1 ≤ a.startProfileId → pid = obs.profileId) :
    RunInv a w
      { fs := fsUpdate
          (fsUpdate (fsUpdate obs.fs (FPath.tmp n) (some 384)) (FPath.tmp n) none)
          (FPath.out (profOutName c mq)) (some 493),
        counter := cnt,
        profileId := pid + 1, outputs := outs,
        trace := (obs.trace ++
          ([Ev.mkstemp (FPath.tmp n) 384, Ev.initTry (FPath.tmp n) true,
            Ev.openTry (FPath.tmp n) true] ++
           (insertBlock c (FPath.tmp n) pinds ++
            [Ev.finish (FPath.tmp n) fok pid tv]))) ++
          [Ev.move (FPath.tmp n) (FPath.out (profOutName c mq)),
           Ev.chmod (FPath.out (profOutName c mq)) 493],
        finished := obs.finished ++ [⟨profOutName c mq, mq, c.ext, pid, tv⟩],
        crashed := obs.crashed } := by
  rw [List.append_assoc]
  refine h.extend _ _ _ _ _ _ _ ?_ ?_ ?_ ?_ ?_ ?_ ?_ ?_
  · intro e hedl
    rcases List.mem_append.mp hedl with h1 | hM
    · rcases List.mem_append.mp h1 with h2 | h3
      · simp at h2
        rcases h2 with rfl | rfl | rfl <;> rfl
      · rcases List.mem_append.mp h3 with h4 | h5
        · exact insertBlock_evOK c n pinds e h4
        · rcases List.mem_singleton.mp h5 with rfl
          rfl
    · simp at hM
      rcases hM with rfl | rfl <;> rfl
  · intro fin
    simp only [List.append_assoc]
    simp only [List.cons_append, List.nil_append, List.append_eq, mjScan]
    show mjScan fin (insertBlock c (FPath.tmp n) pinds ++
      ([Ev.finish (FPath.tmp n) fok pid tv] ++
       [Ev.move (FPath.tmp n) (FPath.out (profOutName c mq)),
        Ev.chmod (FPath.out (profOutName c mq)) 493]))
    rw [mjScan_plain_append _ _ _ (insertBlock_plain c (FPath.tmp n) pinds)]
    subst hfok
    simp [mjScan]
  · simp only [List.append_assoc]
    simp only [List.cons_append, List.nil_append, List.append_eq, chmodAfterMove]
    show chmodAfterMove (insertBlock c (FPath.tmp n) pinds ++
      ([Ev.finish (FPath.tmp n) fok pid tv] ++
       [Ev.move (FPath.tmp n) (FPath.out (profOutName c mq)),
        Ev.chmod (FPath.out (profOutName c mq)) 493]))
    rw [cam_notMove_append _ _ (insertBlock_notMove c (FPath.tmp n) pinds)]
    simp [chmodAfterMove]
  · intro s d hc
    rw [List.getLast?_append] at hc
    simp at hc
  · intro s hs2
    by_cases hse : FPath.out s = FPath.out (profOutName c mq)
    · refine Or.inr ⟨FPath.tmp n, ?_⟩
      rw [hse]
      simp
    · rw [fsUpdate_ne _ _ _ _ hse, fsUpdate_out_tmp, fsUpdate_out_tmp] at hs2
      exact Or.inl hs2
  · intro hlt p ok id tv2 hmem
    rcases List.mem_append.mp hmem with h1 | hM
    · rcases List.mem_append.mp h1 with h2 | h3
      · simp at h2
      · rcases List.mem_append.mp h3 with h4 | h5
        · exact absurd h4 (noFinish_insertBlock c (FPath.tmp n) pinds p ok id tv2)
        · rcases List.mem_singleton.mp h5 with h6
          injection h6 with e1 e2 e3 e4
          subst e3
          subst e4
          exact ⟨mq, hm, hpid1 hlt⟩
    · simp at hM
  · intro hge
    refine Or.inr ⟨?_, by rw [hpid2 hge]⟩
    rw [finishIds_append, finishIds_append, finishIds_append, finishIds_insertBlock]
    simp [finishIds, hpid2 hge]
  · refine Or.inr ⟨⟨profOutName c mq, mq, c.ext, pid, tv⟩, rfl, ?_, ?_⟩
    · show profOutName c mq = _
      simp only [profOutName, profFileBase]
      rw [ho, hg]
    · exact he

/-- `stepProfC` preserves the run invariant. -/
theorem stepProfC_pres (a : Args) (w : WEnv) (c : PCtx) (itv : PItv)
    (hs : c.startProfileId = a.startProfileId)
    (ho : c.outputPath = a.outputPath)
    (hg : c.glider = w.glider)
    (he : ∃ d ∈ a.dbaFiles, c.ext = d.ext)
    (obs : Obs) (h : RunInv a w obs) :
    RunInv a w (stepProfC c obs itv).1 := by
  unfold stepProfC
  split
  · exact h
  · rename_i mq hm
    dsimp only
    split_ifs
    all_goals first
      | exact h.skipA _ _ _ (fun hge => by omega)
      | exact h.skipB _ _ _ (fun hge => by omega)
      | exact h.skipC _ _ _ (fun hge => by omega)
      | exact h.finishA c _ _ _ _ _ _ _ _ hm
          (fun hlt => by omega) (fun hge => by omega)
      | exact h.placedE c ho hg he _ _ _ _ _ _ _ _ hm
          (by simp_all) (fun hlt => by omega) (fun hge => by omega)

/-- `stepDbaC` preserves the run invariant. -/
theorem stepDbaC_pres (a : Args) (w : WEnv) (d : DbaEnv) (hd : d ∈ a.dbaFiles)
    (obs : Obs) (h : RunInv a w obs) :
    RunInv a w (stepDbaC a w obs d).1 := by
  unfold stepDbaC
  split_ifs with hcr hisf hemp hsl
  · exact h
  · exact h
  · exact h
  · exact h
  · split
    · exact h
    · split_ifs with hpe
      · exact h
      · dsimp only
        split_ifs with hlat hlon
        · exact h
        · exact h
        · split
          · exact ⟨h.evok, h.mj, h.cam, h.closed, h.pub, h.meanIds, h.seqIds, h.fin8⟩
          · rename_i sr hsr
            rw [wFold_fst]
            unfold oFold
            refine foldl_inv _ _ _ h ?_
            intro itv _ o hP
            exact stepProfC_pres a w _ itv rfl rfl rfl ⟨d, hd, rfl⟩ o hP

/-- The run invariant holds after the whole per-dba loop. -/
theorem runObs_inv (a : Args) (w : WEnv) : RunInv a w (runObs a w) := by
  unfold runObs oFold
  refine foldl_inv _ _ _ ?_ ?_
  · refine ⟨?_, ?_, ?_, ?_, ?_, ?_, ?_, ?_⟩
    · intro e he
      simp [initialObs] at he
    · trivial
    · trivial
    · intro s d' hc
      simp [initialObs] at hc
    · intro s hs2
      exact Or.inl hs2
    · intro _ p ok id tv hmem
      simp [initialObs] at hmem
    · intro hge
      constructor
      · simp [initialObs, finishIds]
      · simp [initialObs, finishIds]
    · intro rec hrec
      simp [initialObs] at hrec
  · intro d hd o hP
    exact stepDbaC_pres a w d hd o hP

/-- Effect of the final chmod-and-print loop on the filesystem: a path is
either untouched, or it held a file before and now has mode 0o664. -/
theorem finalLoop_fs (fs : FS) (outs : List String) (q : FPath) :
    (finalLoop fs outs).fs q = fs q ∨
    ((fs q).isSome = true ∧ (finalLoop fs outs).fs q = some 436) := by
  induction outs generalizing fs with
  | nil => exact Or.inl rfl
  | cons f rest ih =>
    unfold finalLoop
    split
    · exact Or.inl rfl
    · rename_i m hf
      dsimp only
      rcases ih (fsUpdate fs (FPath.out f) (some 436)) with h1 | ⟨h2a, h2b⟩
      · by_cases hq : q = FPath.out f
        · subst hq
          rw [h1, fsUpdate_eq]
          exact Or.inr ⟨by rw [hf]; rfl, rfl⟩
        · rw [h1, fsUpdate_ne _ _ _ _ hq]
          exact Or.inl rfl
      · by_cases hq : q = FPath.out f
        · subst hq
          exact Or.inr ⟨by rw [hf]; rfl, h2b⟩
        · rw [fsUpdate_ne _ _ _ _ hq] at h2a
          exact Or.inr ⟨h2a, h2b⟩

/-- The final loop only emits `chmod <output> 0o664` events. -/
theorem finalLoop_events (fs : FS) (outs : List String) :
    ∀ e ∈ (finalLoop fs outs).events, ∃ f, e = Ev.chmod (FPath.out f) 436 := by
  induction outs generalizing fs with
  | nil => intro e he; simp [finalLoop] at he
  | cons f rest ih =>
    intro e he
    unfold finalLoop at he
    revert he
    split
    · intro he; simp at he
    · rename_i m hf
      dsimp only
      intro he
      rcases List.mem_cons.mp he with rfl | h2
      · exact ⟨f, rfl⟩
      · exact ih _ e h2

/-- Every path printed by the final loop holds a file with mode 0o664 in
the final filesystem. -/
theorem finalLoop_printed (fs : FS) (outs : List String) :
    ∀ p ∈ (finalLoop fs outs).printed,
      (finalLoop fs outs).fs (FPath.out p) = some 436 := by
  induction outs generalizing fs with
  | nil => intro p hp; simp [finalLoop] at hp
  | cons f rest ih =>
    intro p hp
    unfold finalLoop at hp ⊢
    revert hp
    split
    · intro hp; simp at hp
    · rename_i m hf
      dsimp only
      intro hp
      rcases List.mem_cons.mp hp with rfl | h2
      · rcases finalLoop_fs (fsUpdate fs (FPath.out p) (some 436)) rest (FPath.out p)
          with h1 | ⟨_, h2b⟩
        · rw [h1, fsUpdate_eq]
        · exact h2b
      · exact ih _ p h2

/-- Case analysis of a whole `main` run: an early return before any file
was touched, a stop after the per-dba loop (crash or rmtree failure), or a
normal end running the final chmod-and-print loop. -/
theorem mainRun_shape (a : Args) (w : WEnv) :
    ((mainRun a w).trace = [] ∧ (mainRun a w).finished = [] ∧
     (∀ s, (mainRun a w).fs (FPath.out s) = w.initFs s) ∧
     (∀ s, (mainRun a w).fs (FPath.tmp s) = none) ∧
     ((mainRun a w).stdout = [] ∨ a.debug = true) ∧
     ((mainRun a w).outcome = Outcome.exit 0 ∨ (mainRun a w).outcome = Outcome.exit 1))
  ∨ ((mainRun a w).trace = (runObs a w).trace ∧
     (mainRun a w).finished = (runObs a w).finished ∧
     (mainRun a w).fs = (runObs a w).fs ∧
     (mainRun a w).stdout = [] ∧
     ((mainRun a w).outcome = Outcome.crash ∨ (mainRun a w).outcome = Outcome.exit 1))
  ∨ (∃ r, r = finalLoop (tmpStrip (runObs a w).fs) (runObs a w).outputs ∧
     (mainRun a w).trace = (runObs a w).trace ++ r.events ∧
     (mainRun a w).finished = (runObs a w).finished ∧
     (mainRun a w).fs = r.fs ∧
     (mainRun a w).stdout = r.printed ∧
     (mainRun a w).outcome = (if r.crashed then Outcome.crash else Outcome.exit 0)) := by
  cases h1 : a.configIsDir with
  | false =>
    have he : mainRun a w = ⟨Outcome.exit 1, (initialObs a w).fs, [], [],
        ["Invalid configuration directory"], [], []⟩ := by
      simp [mainRun, h1]
    rw [he]
    exact Or.inl ⟨rfl, rfl, fun s => rfl, fun s => rfl, Or.inl rfl, Or.inr rfl⟩
  | true =>
  cases h2 : a.outputIsDir with
  | false =>
    have he : mainRun a w = ⟨Outcome.exit 1, (initialObs a w).fs, [], [],
        ["Invalid output_path"], [], []⟩ := by
      simp [mainRun, h1, h2]
    rw [he]
    exact Or.inl ⟨rfl, rfl, fun s => rfl, fun s => rfl, Or.inl rfl, Or.inr rfl⟩
  | true =>
  cases h3 : a.dbaFiles.isEmpty with
  | true =>
    have he : mainRun a w = ⟨Outcome.exit 1, (initialObs a w).fs, [], [],
        ["No Slocum dba files specified"], [], []⟩ := by
      simp [mainRun, h1, h2, h3]
    rw [he]
    exact Or.inl ⟨rfl, rfl, fun s => rfl, fun s => rfl, Or.inl rfl, Or.inr rfl⟩
  | false =>
  cases h4 : w.ctdValid with
  | false =>
    have he : mainRun a w = ⟨Outcome.exit 1, (initialObs a w).fs, [], [],
        ["Bad sensor definitions"], [], []⟩ := by
      simp [mainRun, h1, h2, h3, h4]
    rw [he]
    exact Or.inl ⟨rfl, rfl, fun s => rfl, fun s => rfl, Or.inl rfl, Or.inr rfl⟩
  | true =>
  cases h5 : w.ngdacValid with
  | false =>
    have he : mainRun a w = ⟨Outcome.exit 1, (initialObs a w).fs, [], [],
        ["Bad sensor definitions"], [], []⟩ := by
      simp [mainRun, h1, h2, h3, h4, h5]
    rw [he]
    exact Or.inl ⟨rfl, rfl, fun s => rfl, fun s => rfl, Or.inl rfl, Or.inr rfl⟩
  | true =>
  cases h6 : a.debug with
  | true =>
    have he : mainRun a w = ⟨Outcome.exit 0, (initialObs a w).fs, [], [w.writerRepr],
        [], [], []⟩ := by
      simp [mainRun, h1, h2, h3, h4, h5, h6]
    rw [he]
    exact Or.inl ⟨rfl, rfl, fun s => rfl, fun s => rfl, Or.inr rfl, Or.inl rfl⟩
  | false =>
  cases hcr : (runObs a w).crashed with
  | true =>
    have he : mainRun a w = ⟨Outcome.crash, (runObs a w).fs, (runObs a w).trace, [],
        runLog a w, (runObs a w).outputs, (runObs a w).finished⟩ := by
      simp [mainRun, h1, h2, h3, h4, h5, h6, hcr]
    rw [he]
    exact Or.inr (Or.inl ⟨rfl, rfl, rfl, rfl, Or.inl rfl⟩)
  | false =>
  cases h8 : w.rmtreeOk with
  | false =>
    have he : mainRun a w = ⟨Outcome.exit 1, (runObs a w).fs, (runObs a w).trace, [],
        runLog a w ++ ["Error removing temporary directory"],
        (runObs a w).outputs, (runObs a w).finished⟩ := by
      simp [mainRun, h1, h2, h3, h4, h5, h6, hcr, h8]
    rw [he]
    exact Or.inr (Or.inl ⟨rfl, rfl, rfl, rfl, Or.inr rfl⟩)
  | true =>
    have he : mainRun a w =
        ⟨if (finalLoop (tmpStrip (runObs a w).fs) (runObs a w).outputs).crashed
            then Outcome.crash else Outcome.exit 0,
         (finalLoop (tmpStrip (runObs a w).fs) (runObs a w).outputs).fs,
         (runObs a w).trace ++
           (finalLoop (tmpStrip (runObs a w).fs) (runObs a w).outputs).events,
         (finalLoop (tmpStrip (runObs a w).fs) (runObs a w).outputs).printed,
         runLog a w, (runObs a w).outputs, (runObs a w).finished⟩ := by
      simp [mainRun, h1, h2, h3, h4, h5, h6, hcr, h8]
    rw [he]
    exact Or.inr (Or.inr ⟨_, rfl, rfl, rfl, rfl, rfl, rfl⟩)

theorem mjScan_plain (fin : List FPath) (l : List Ev)
    (hl : ∀ e ∈ l, evPlain e = true) : mjScan fin l := by
  have h := (mjScan_plain_append fin l [] hl).mpr trivial
  rwa [List.append_nil] at h

theorem cam_plain (l : List Ev) (hl : ∀ e ∈ l, notMove e = true) :
    chmodAfterMove l := by
  have h := (cam_notMove_append l [] hl).mpr trivial
  rwa [List.append_nil] at h

theorem closedTr_of_notMove (l : List Ev) (hl : ∀ e ∈ l, notMove e = true) :
    closedTr l := by
  intro src dst hc
  have hmem : Ev.move src dst ∈ l.getLast? := Option.mem_def.mpr hc
  rcases List.mem_getLast?_eq_getLast hmem with ⟨hne, heq⟩
  have hm2 := List.getLast_mem hne
  rw [← heq] at hm2
  have := hl _ hm2
  simp [notMove] at this

theorem finalLoop_events_plain (fs : FS) (outs : List String) :
    ∀ e ∈ (finalLoop fs outs).events, evPlain e = true := by
  intro e he
  rcases finalLoop_events fs outs e he with ⟨f, rfl⟩
  rfl

theorem finalLoop_events_notMove (fs : FS) (outs : List String) :
    ∀ e ∈ (finalLoop fs outs).events, notMove e = true := by
  intro e he
  rcases finalLoop_events fs outs e he with ⟨f, rfl⟩
  rfl

theorem finishIds_finalLoop (fs : FS) (outs : List String) :
    finishIds (finalLoop fs outs).events = [] := by
  rw [finishIds, List.filterMap_eq_nil_iff]
  intro e he
  rcases finalLoop_events fs outs e he with ⟨f, rfl⟩
  rfl

/-- **C1.** Staged write then atomic publish: in every run, (i) every file
creation, initialization, opening, population, finalization and unlink in
the trace targets the temporary staging directory only, and every `move`
goes from the staging directory to the output directory (`evOK`); (ii) the
source of every `move` has earlier been finalized by a successful
`finish_nc` (`mjScan`); (iii) a file is visible at a permanent output path
only if it pre-existed the run or was placed there by a `move` — hence a
profile whose initialization, opening, population or finalization failed is
never visible at its permanent destination. -/
theorem c1_staged_write_atomic_publish (a : Args) (w : WEnv) :
    (∀ e ∈ (mainRun a w).trace, evOK e = true) ∧
    mjScan [] (mainRun a w).trace ∧
    (∀ s, ((mainRun a w).fs (FPath.out s)).isSome = true →
      (w.initFs s).isSome = true ∨
      ∃ src, Ev.move src (FPath.out s) ∈ (mainRun a w).trace) := by
  have hinv := runObs_inv a w
  rcases mainRun_shape a w with ⟨ht, hf, hfo, hft, _, _⟩ | ⟨ht, hf, hfs, _, _⟩ |
    ⟨r, hr, ht, hf, hfs, _, _⟩
  · refine ⟨?_, ?_, ?_⟩
    · intro e he
      rw [ht] at he
      simp at he
    · rw [ht]
      trivial
    · intro s hs2
      rw [hfo s] at hs2
      exact Or.inl hs2
  · refine ⟨?_, ?_, ?_⟩
    · intro e he
      rw [ht] at he
      exact hinv.evok e he
    · rw [ht]
      exact hinv.mj
    · intro s hs2
      rw [hfs] at hs2
      rcases hinv.pub s hs2 with h1 | ⟨src, h2⟩
      · exact Or.inl h1
      · exact Or.inr ⟨src, by rw [ht]; exact h2⟩
  · subst hr
    refine ⟨?_, ?_, ?_⟩
    · intro e he
      rw [ht] at he
      rcases List.mem_append.mp he with h1 | h2
      · exact hinv.evok e h1
      · rcases finalLoop_events _ _ e h2 with ⟨f2, rfl⟩
        rfl
    · rw [ht]
      exact (mjScan_append [] _ _).mpr
        ⟨hinv.mj, mjScan_plain _ _ (finalLoop_events_plain _ _)⟩
    · intro s hs2
      rw [hfs] at hs2
      have hso : ((runObs a w).fs (FPath.out s)).isSome = true := by
        rcases finalLoop_fs (tmpStrip (runObs a w).fs) (runObs a w).outputs
            (FPath.out s) with h1 | ⟨h2a, _⟩
        · rw [h1] at hs2
          exact hs2
        · exact h2a
      rcases hinv.pub s hso with h1 | ⟨src, h2⟩
      · exact Or.inl h1
      · exact Or.inr ⟨src, by rw [ht]; exact List.mem_append.mpr (Or.inl h2)⟩

/-- **C4.** Profile-identifier assignment policy: when the supplied
`start_profile_id` is `< 1`, every `finish_nc` records as profile id the
truncated integer of the NaN-ignoring mean of that profile interval's own
timestamps; when it is `≥ 1`, the ids recorded by successive `finish_nc`
calls are exactly `start, start+1, start+2, …` — the writer's own
sequential counter, never overwritten by the script. -/
theorem c4_profile_id_policy (a : Args) (w : WEnv) :
    (a.startProfileId < 1 →
      ∀ p ok id tv, Ev.finish p ok id tv ∈ (mainRun a w).trace →
        ∃ q, nanmean tv = some q ∧ id = truncQ q) ∧
    (1 ≤ a.startProfileId →
      finishIds (mainRun a w).trace =
        (List.range (finishIds (mainRun a w).trace).length).map
          (fun i : Nat => a.startProfileId + (i : Int))) := by
  have hinv := runObs_inv a w
  rcases mainRun_shape a w with ⟨ht, _, _, _, _, _⟩ | ⟨ht, _, _, _, _⟩ |
    ⟨r, hr, ht, _, _, _, _⟩
  · constructor
    · intro _ p ok id tv hmem
      rw [ht] at hmem
      simp at hmem
    · intro _
      rw [ht]
      rfl
  · constructor
    · intro hlt p ok id tv hmem
      rw [ht] at hmem
      exact hinv.meanIds hlt p ok id tv hmem
    · intro hge
      rw [ht]
      exact (hinv.seqIds hge).1
  · subst hr
    have hfe : finishIds (mainRun a w).trace = finishIds (runObs a w).trace := by
      rw [ht, finishIds_append, finishIds_finalLoop, List.append_nil]
    constructor
    · intro hlt p ok id tv hmem
      rw [ht] at hmem
      rcases List.mem_append.mp hmem with h1 | h2
      · exact hinv.meanIds hlt p ok id tv h1
      · rcases finalLoop_events _ _ _ h2 with ⟨f, hfeq⟩
        cases hfeq
    · intro hge
      rw [hfe]
      exact (hinv.seqIds hge).1

/-- **C8.** Output naming: every placed artifact's permanent path is
`output_path` joined with
`<glider>-<mean time as YYYYMMDDThhmmssZ>-<ext>-profile.nc`, where the
glider id is the deployment's glider attribute, the timestamp renders the
profile's mean epoch (`tsToStr` embeds
`utcfromtimestamp(...).strftime('%Y%m%dT%H%M%SZ')`), and the extension
comes from the source dba file's metadata. -/
theorem c8_output_naming (a : Args) (w : WEnv) :
    ∀ rec ∈ (mainRun a w).finished,
      rec.outPath = joinPath a.outputPath
        (w.glider ++ "-" ++ tsToStr rec.meanEpoch ++ "-" ++ rec.ext ++
         "-profile" ++ ".nc") ∧
      ∃ d ∈ a.dbaFiles, rec.ext = d.ext := by
  have hinv := runObs_inv a w
  intro rec hrec
  rcases mainRun_shape a w with ⟨_, hf, _, _, _, _⟩ | ⟨_, hf, _, _, _⟩ |
    ⟨r, hr, _, hf, _, _, _⟩
  · rw [hf] at hrec
    simp at hrec
  · rw [hf] at hrec
    exact hinv.fin8 rec hrec
  · rw [hf] at hrec
    exact hinv.fin8 rec hrec

/-- **C9 (amended).** Permission transition as implemented: every `move`
into the output directory is immediately followed by `chmod dst 0o755`
(after placement, not during staging); no chmod ever touches a staging
path — staged files keep `mkstemp`'s default 0o600 mode; and in a
non-debug run every path printed on stdout holds a file with mode 0o664 in
the final filesystem. -/
theorem c9_permission_transition (a : Args) (w : WEnv) :
    chmodAfterMove (mainRun a w).trace ∧
    (∀ n m, Ev.chmod (FPath.tmp n) m ∉ (mainRun a w).trace) ∧
    (a.debug = false → ∀ p ∈ (mainRun a w).stdout,
      (mainRun a w).fs (FPath.out p) = some 436) := by
  have hinv := runObs_inv a w
  rcases mainRun_shape a w with ⟨ht, _, _, _, hso, _⟩ | ⟨ht, _, _, hso, _⟩ |
    ⟨r, hr, ht, _, hfs, hso, _⟩
  · refine ⟨?_, ?_, ?_⟩
    · rw [ht]
      trivial
    · intro n m hmem
      rw [ht] at hmem
      simp at hmem
    · intro hdbg p hp
      rcases hso with h1 | h1
      · rw [h1] at hp
        simp at hp
      · rw [hdbg] at h1
        cases h1
  · refine ⟨?_, ?_, ?_⟩
    · rw [ht]
      exact hinv.cam
    · intro n m hmem
      rw [ht] at hmem
      have := hinv.evok _ hmem
      simp [evOK, FPath.isOut] at this
    · intro hdbg p hp
      rw [hso] at hp
      simp at hp
  · subst hr
    refine ⟨?_, ?_, ?_⟩
    · rw [ht]
      exact cam_append _ _ hinv.closed hinv.cam
        (cam_plain _ (finalLoop_events_notMove _ _))
    · intro n m hmem
      rw [ht] at hmem
      rcases List.mem_append.mp hmem with h1 | h2
      · have := hinv.evok _ h1
        simp [evOK, FPath.isOut] at this
      · rcases finalLoop_events _ _ _ h2 with ⟨f, hfeq⟩
        cases hfeq
    · intro hdbg p hp
      rw [hso] at hp
      rw [hfs]
      exact finalLoop_printed _ _ p hp

/-- **C6.** Profile-error skipping: if a profile interval's NaN-ignoring
mean timestamp is NaN, or a same-named output file already exists and
clobber was not requested, or `init_nc` fails, or `open_nc`/`update_history`
fails, then that profile is skipped — nothing is appended to the output
list or the placed-artifact list, the output directory is unchanged, no
`move` happens, a diagnostic is logged — and the profile loop continues
with the remaining intervals; moreover in any run of `main` that returns
exit code 0, no staging artifact remains on disk (the staging directory was
removed). -/
theorem c6_profile_error_skipping (c : PCtx) (obs : Obs) (itv : PItv)
    (hskip : nanmean itv.times = none ∨
      (∃ mq, nanmean itv.times = some mq ∧
        (obs.fs (FPath.out (profOutName c mq))).isSome = true ∧
        c.clobber = false) ∨
      itv.initOk = false ∨ itv.openOk = false) :
    profSkipped c obs itv ∧
    ∀ a w, (mainRun a w).outcome = Outcome.exit 0 →
      ∀ s, (mainRun a w).fs (FPath.tmp s) = none := by
  constructor
  · unfold profSkipped stepProfC
    split
    · rename_i hm
      exact ⟨rfl, rfl, fun s => rfl,
        ⟨[], (List.append_nil _).symm, by intro src dst hmem; simp at hmem⟩,
        by simp⟩
    · rename_i mq hm
      dsimp only
      split_ifs
      all_goals first
        | (exfalso
           rcases hskip with hno | ⟨mq2, hm2, hsome2, hclob2⟩ | hi | hop <;>
             (simp_all [fsUpdate_out_tmp]; done))
        | exact ⟨rfl, rfl, fun s => by simp [fsUpdate],
            ⟨_, rfl, by intro src dst hmem; simp at hmem⟩, by simp⟩
  · intro a w hout s
    rcases mainRun_shape a w with ⟨_, _, _, htmp, _, _⟩ | ⟨_, _, hfs, _, hoc⟩ |
      ⟨r, hr, _, _, hfs, _, _⟩
    · exact htmp s
    · exfalso
      rcases hoc with h1 | h1 <;> rw [h1] at hout <;> cases hout
    · subst hr
      rw [hfs]
      rcases finalLoop_fs (tmpStrip (runObs a w).fs) (runObs a w).outputs
          (FPath.tmp s) with h1 | ⟨h2a, _⟩
      · rw [h1]
        rfl
      · exfalso
        rw [show tmpStrip (runObs a w).fs (FPath.tmp s) = none from rfl] at h2a
        cases h2a

theorem filter_insertBlock (c : PCtx) (tmpP : FPath) (pinds : List Nat) :
    (insertBlock c tmpP pinds).filter isInsertEv = insertBlock c tmpP pinds := by
  apply List.filter_eq_self.mpr
  intro e he
  rcases List.mem_map.mp he with ⟨v, _, rfl⟩
  rfl

/-- **C10.** Inclusive boundary rows: for a profile that reaches the data
insertion stage, the insertion events appended to the trace are exactly
`insertBlock` over `pInds`, i.e. one array per sensor holding the rows
whose timestamp `t` satisfies `p0 ≤ t ≤ p1` with both endpoints inclusive
(`pInds` embeds `np.flatnonzero(np.logical_and(ts >= p0, ts <= p1))`);
membership in `pInds` is exactly the two inclusive comparisons; hence a row
whose timestamp equals the boundary shared by two consecutive intervals is
selected for both. -/
theorem c10_inclusive_boundaries (c : PCtx) (obs : Obs) (itv : PItv) (mq : ℚ)
    (hm : nanmean itv.times = some mq)
    (hex : ((obs.fs (FPath.out (profOutName c mq))).isSome && !c.clobber) = false)
    (hinit : itv.initOk = true) (hopen : itv.openOk = true) :
    ((stepProfC c obs itv).1.trace.filter isInsertEv =
      obs.trace.filter isInsertEv ++
      insertBlock c
        (FPath.tmp (profFileBase c mq ++ "-" ++ toString obs.counter ++ ".nc"))
        (pInds c.ts (itv.times.headD none) (itv.times.getLastD none))) ∧
    (∀ ts p0 p1 i, i ∈ pInds ts p0 p1 ↔
      i < ts.length ∧ vle p0 (ts.getD i none) = true ∧
        vle (ts.getD i none) p1 = true) ∧
    (∀ ts pa pb b i, i < ts.length → ts.getD i none = some b →
      vle pa (some b) = true → vle (some b) pb = true →
      i ∈ pInds ts pa (some b) ∧ i ∈ pInds ts (some b) pb) := by
  refine ⟨?_, ?_, ?_⟩
  · unfold stepProfC
    rw [hm]
    dsimp only
    have hex2 : (((fsUpdate obs.fs
        (FPath.tmp (profFileBase c mq ++ "-" ++ toString obs.counter ++ ".nc"))
        (some 384)) (FPath.out (profOutName c mq))).isSome && !c.clobber) = false := by
      rw [fsUpdate_out_tmp]
      exact hex
    simp only [hex2, hinit, hopen, Bool.not_true, Bool.false_eq_true, if_false]
    split_ifs
    all_goals
      simp [List.filter_append, filter_insertBlock, isInsertEv, List.filter_cons]
  · intro ts p0 p1 i
    simp only [pInds, List.mem_filter, List.mem_range, Bool.and_eq_true, and_assoc]
  · intro ts pa pb b i hi hb hpa hpb
    constructor
    · simp only [pInds, List.mem_filter, List.mem_range, Bool.and_eq_true]
      exact ⟨hi, by rw [hb]; exact hpa, by rw [hb]; simp [vle]⟩
    · simp only [pInds, List.mem_filter, List.mem_range, Bool.and_eq_true]
      exact ⟨hi, by rw [hb]; simp [vle], by rw [hb]; exact hpb⟩

theorem stepDbaC_skip (a : Args) (w : WEnv) (d : DbaEnv)
    (hb : badDba a.ctdPfx d) (obs : Obs) :
    (stepDbaC a w obs d).1 = obs ∧
    (obs.crashed = false → d.sliceOk = true → (stepDbaC a w obs d).2 ≠ []) := by
  unfold stepDbaC
  split_ifs with hcr hisf hemp hsl
  · exact ⟨rfl, fun hc _ => by simp [hc] at hcr⟩
  · exact ⟨rfl, fun _ _ => by simp⟩
  · exact ⟨rfl, fun _ _ => by simp⟩
  · exact ⟨rfl, fun _ hsl2 => by simp [hsl2] at hsl⟩
  · split
    · exact ⟨rfl, fun _ _ => by simp⟩
    · rename_i pts heq
      split_ifs with hpe
      · exact ⟨rfl, fun _ _ => by simp⟩
      · dsimp only
        split_ifs with hlat hlon
        · exact ⟨rfl, fun _ _ => by simp⟩
        · exact ⟨rfl, fun _ _ => by simp⟩
        · exfalso
          rcases hb with h | h | ⟨msg, h⟩ | h | h | h <;> simp_all

/-- The arguments record differs only in the dba list, which the per-dba
step never reads. -/
theorem stepDbaC_dbaFiles_irrel (a : Args) (X Y : List DbaEnv) (w : WEnv) :
    stepDbaC { a with dbaFiles := X } w = stepDbaC { a with dbaFiles := Y } w := rfl

theorem initialObs_dbaFiles_irrel (a : Args) (X Y : List DbaEnv) (w : WEnv) :
    initialObs { a with dbaFiles := X } w = initialObs { a with dbaFiles := Y } w := rfl

/-- **C5.** Source-error skipping: a dba file whose path is not a file, or
whose parsed record set is empty, or for which `find_profiles` raised
`ValueError` or returned zero intervals, or whose extracted latitudes (or
longitudes) are all NaN, leaves the observable state exactly unchanged
(skipped, no output created), logs a diagnostic (whenever the iteration is
not silently pre-empted by `slice_sensor_data` returning `None`), and the
batch continues: inserting such a source anywhere in the input list changes
nothing observable about the whole run. -/
theorem c5_source_error_skipping (a : Args) (w : WEnv) (obs : Obs) (d : DbaEnv)
    (hb : badDba a.ctdPfx d) :
    (stepDbaC a w obs d).1 = obs ∧
    (obs.crashed = false → d.sliceOk = true → (stepDbaC a w obs d).2 ≠ []) ∧
    ∀ l₁ l₂ : List DbaEnv, (l₁ ++ l₂).isEmpty = false →
      (mainRun { a with dbaFiles := l₁ ++ d :: l₂ } w).outcome =
        (mainRun { a with dbaFiles := l₁ ++ l₂ } w).outcome ∧
      (mainRun { a with dbaFiles := l₁ ++ d :: l₂ } w).trace =
        (mainRun { a with dbaFiles := l₁ ++ l₂ } w).trace ∧
      (mainRun { a with dbaFiles := l₁ ++ d :: l₂ } w).stdout =
        (mainRun { a with dbaFiles := l₁ ++ l₂ } w).stdout ∧
      (mainRun { a with dbaFiles := l₁ ++ d :: l₂ } w).fs =
        (mainRun { a with dbaFiles := l₁ ++ l₂ } w).fs ∧
      (mainRun { a with dbaFiles := l₁ ++ d :: l₂ } w).finished =
        (mainRun { a with dbaFiles := l₁ ++ l₂ } w).finished := by
  refine ⟨(stepDbaC_skip a w d hb obs).1, (stepDbaC_skip a w d hb obs).2, ?_⟩
  intro l₁ l₂ hne2
  have hne1 : (l₁ ++ d :: l₂).isEmpty = false := by cases l₁ <;> rfl
  have hid : ∀ o : Obs, (stepDbaC { a with dbaFiles := l₁ ++ l₂ } w o d).1 = o :=
    fun o => (stepDbaC_skip { a with dbaFiles := l₁ ++ l₂ } w d hb o).1
  have hobs : runObs { a with dbaFiles := l₁ ++ d :: l₂ } w =
      runObs { a with dbaFiles := l₁ ++ l₂ } w := by
    unfold runObs oFold
    simp only [stepDbaC_dbaFiles_irrel a (l₁ ++ d :: l₂) (l₁ ++ l₂) w,
      initialObs_dbaFiles_irrel a (l₁ ++ d :: l₂) (l₁ ++ l₂) w]
    rw [List.foldl_append, List.foldl_append, List.foldl_cons]
    rw [hid _]
  have hfs0 : ∀ (X Y : List DbaEnv),
      (initialObs { a with dbaFiles := X } w).fs =
        (initialObs { a with dbaFiles := Y } w).fs := fun X Y => rfl
  rcases Bool.eq_false_or_eq_true a.configIsDir with h1 | h1
  · rcases Bool.eq_false_or_eq_true a.outputIsDir with h2 | h2
    · rcases Bool.eq_false_or_eq_true w.ctdValid with h4 | h4
      · rcases Bool.eq_false_or_eq_true w.ngdacValid with h5 | h5
        · rcases Bool.eq_false_or_eq_true a.debug with h6 | h6
          · have he1 : mainRun { a with dbaFiles := l₁ ++ d :: l₂ } w =
                ⟨Outcome.exit 0, (initialObs { a with dbaFiles := l₁ ++ d :: l₂ } w).fs,
                 [], [w.writerRepr], [], [], []⟩ := by
              simp [mainRun, h1, h2, hne1, h4, h5, h6]
            have he2 : mainRun { a with dbaFiles := l₁ ++ l₂ } w =
                ⟨Outcome.exit 0, (initialObs { a with dbaFiles := l₁ ++ l₂ } w).fs,
                 [], [w.writerRepr], [], [], []⟩ := by
              simp [mainRun, h1, h2, hne2, h4, h5, h6]
            rw [he1, he2]
            exact ⟨rfl, rfl, rfl, hfs0 (l₁ ++ d :: l₂) (l₁ ++ l₂), rfl⟩
          · have hobs3 := hobs
            simp only [h1, h2, h6] at hobs3
            rcases Bool.eq_false_or_eq_true
              (runObs { a with dbaFiles := l₁ ++ l₂ } w).crashed with hcr2 | hcr2
            all_goals have hcr3 := hcr2
            all_goals simp only [h1, h2, h6] at hcr3
            · have he1 : mainRun { a with dbaFiles := l₁ ++ d :: l₂ } w =
                  ⟨Outcome.crash, (runObs { a with dbaFiles := l₁ ++ l₂ } w).fs, (runObs { a with dbaFiles := l₁ ++ l₂ } w).trace, [],
                   runLog { a with dbaFiles := l₁ ++ d :: l₂ } w, (runObs { a with dbaFiles := l₁ ++ l₂ } w).outputs, (runObs { a with dbaFiles := l₁ ++ l₂ } w).finished⟩ := by
                simp [mainRun, h1, h2, hne1, h4, h5, h6, hobs3, hcr3]
              have he2 : mainRun { a with dbaFiles := l₁ ++ l₂ } w =
                  ⟨Outcome.crash, (runObs { a with dbaFiles := l₁ ++ l₂ } w).fs, (runObs { a with dbaFiles := l₁ ++ l₂ } w).trace, [],
                   runLog { a with dbaFiles := l₁ ++ l₂ } w, (runObs { a with dbaFiles := l₁ ++ l₂ } w).outputs, (runObs { a with dbaFiles := l₁ ++ l₂ } w).finished⟩ := by
                simp [mainRun, h1, h2, hne2, h4, h5, h6, hcr3]
              rw [he1, he2]
              exact ⟨rfl, rfl, rfl, rfl, rfl⟩
            · rcases Bool.eq_false_or_eq_true w.rmtreeOk with h8 | h8
              · have he1 : mainRun { a with dbaFiles := l₁ ++ d :: l₂ } w =
                    ⟨if (finalLoop (tmpStrip (runObs { a with dbaFiles := l₁ ++ l₂ } w).fs) (runObs { a with dbaFiles := l₁ ++ l₂ } w).outputs).crashed then Outcome.crash else Outcome.exit 0,
                     (finalLoop (tmpStrip (runObs { a with dbaFiles := l₁ ++ l₂ } w).fs) (runObs { a with dbaFiles := l₁ ++ l₂ } w).outputs).fs, (runObs { a with dbaFiles := l₁ ++ l₂ } w).trace ++ (finalLoop (tmpStrip (runObs { a with dbaFiles := l₁ ++ l₂ } w).fs) (runObs { a with dbaFiles := l₁ ++ l₂ } w).outputs).events, (finalLoop (tmpStrip (runObs { a with dbaFiles := l₁ ++ l₂ } w).fs) (runObs { a with dbaFiles := l₁ ++ l₂ } w).outputs).printed,
                     runLog { a with dbaFiles := l₁ ++ d :: l₂ } w, (runObs { a with dbaFiles := l₁ ++ l₂ } w).outputs, (runObs { a with dbaFiles := l₁ ++ l₂ } w).finished⟩ := by
                  simp [mainRun, h1, h2, hne1, h4, h5, h6, hobs3, hcr3, h8]
                have he2 : mainRun { a with dbaFiles := l₁ ++ l₂ } w =
                    ⟨if (finalLoop (tmpStrip (runObs { a with dbaFiles := l₁ ++ l₂ } w).fs) (runObs { a with dbaFiles := l₁ ++ l₂ } w).outputs).crashed then Outcome.crash else Outcome.exit 0,
                     (finalLoop (tmpStrip (runObs { a with dbaFiles := l₁ ++ l₂ } w).fs) (runObs { a with dbaFiles := l₁ ++ l₂ } w).outputs).fs, (runObs { a with dbaFiles := l₁ ++ l₂ } w).trace ++ (finalLoop (tmpStrip (runObs { a with dbaFiles := l₁ ++ l₂ } w).fs) (runObs { a with dbaFiles := l₁ ++ l₂ } w).outputs).events, (finalLoop (tmpStrip (runObs { a with dbaFiles := l₁ ++ l₂ } w).fs) (runObs { a with dbaFiles := l₁ ++ l₂ } w).outputs).printed,
                     runLog { a with dbaFiles := l₁ ++ l₂ } w, (runObs { a with dbaFiles := l₁ ++ l₂ } w).outputs, (runObs { a with dbaFiles := l₁ ++ l₂ } w).finished⟩ := by
                  simp [mainRun, h1, h2, hne2, h4, h5, h6, hcr3, h8]
                rw [he1, he2]
                exact ⟨rfl, rfl, rfl, rfl, rfl⟩
              · have he1 : mainRun { a with dbaFiles := l₁ ++ d :: l₂ } w =
                    ⟨Outcome.exit 1, (runObs { a with dbaFiles := l₁ ++ l₂ } w).fs, (runObs { a with dbaFiles := l₁ ++ l₂ } w).trace, [],
                     runLog { a with dbaFiles := l₁ ++ d :: l₂ } w ++ ["Error removing temporary directory"],
                     (runObs { a with dbaFiles := l₁ ++ l₂ } w).outputs, (runObs { a with dbaFiles := l₁ ++ l₂ } w).finished⟩ := by
                  simp [mainRun, h1, h2, hne1, h4, h5, h6, hobs3, hcr3, h8]
                have he2 : mainRun { a with dbaFiles := l₁ ++ l₂ } w =
                    ⟨Outcome.exit 1, (runObs { a with dbaFiles := l₁ ++ l₂ } w).fs, (runObs { a with dbaFiles := l₁ ++ l₂ } w).trace, [],
                     runLog { a with dbaFiles := l₁ ++ l₂ } w ++ ["Error removing temporary directory"],
                     (runObs { a with dbaFiles := l₁ ++ l₂ } w).outputs, (runObs { a with dbaFiles := l₁ ++ l₂ } w).finished⟩ := by
                  simp [mainRun, h1, h2, hne2, h4, h5, h6, hcr3, h8]
                rw [he1, he2]
                exact ⟨rfl, rfl, rfl, rfl, rfl⟩
        · have he1 : mainRun { a with dbaFiles := l₁ ++ d :: l₂ } w =
              ⟨Outcome.exit 1, (initialObs { a with dbaFiles := l₁ ++ d :: l₂ } w).fs,
               [], [], ["Bad sensor definitions"], [], []⟩ := by
            simp [mainRun, h1, h2, hne1, h4, h5]
          have he2 : mainRun { a with dbaFiles := l₁ ++ l₂ } w =
              ⟨Outcome.exit 1, (initialObs { a with dbaFiles := l₁ ++ l₂ } w).fs,
               [], [], ["Bad sensor definitions"], [], []⟩ := by
            simp [mainRun, h1, h2, hne2, h4, h5]
          rw [he1, he2]
          exact ⟨rfl, rfl, rfl, hfs0 (l₁ ++ d :: l₂) (l₁ ++ l₂), rfl⟩
      · have he1 : mainRun { a with dbaFiles := l₁ ++ d :: l₂ } w =
            ⟨Outcome.exit 1, (initialObs { a with dbaFiles := l₁ ++ d :: l₂ } w).fs,
             [], [], ["Bad sensor definitions"], [], []⟩ := by
          simp [mainRun, h1, h2, hne1, h4]
        have he2 : mainRun { a with dbaFiles := l₁ ++ l₂ } w =
            ⟨Outcome.exit 1, (initialObs { a with dbaFiles := l₁ ++ l₂ } w).fs,
             [], [], ["Bad sensor definitions"], [], []⟩ := by
          simp [mainRun, h1, h2, hne2, h4]
        rw [he1, he2]
        exact ⟨rfl, rfl, rfl, hfs0 (l₁ ++ d :: l₂) (l₁ ++ l₂), rfl⟩
    · have he1 : mainRun { a with dbaFiles := l₁ ++ d :: l₂ } w =
          ⟨Outcome.exit 1, (initialObs { a with dbaFiles := l₁ ++ d :: l₂ } w).fs,
           [], [], ["Invalid output_path"], [], []⟩ := by
        simp [mainRun, h1, h2]
      have he2 : mainRun { a with dbaFiles := l₁ ++ l₂ } w =
          ⟨Outcome.exit 1, (initialObs { a with dbaFiles := l₁ ++ l₂ } w).fs,
           [], [], ["Invalid output_path"], [], []⟩ := by
        simp [mainRun, h1, h2]
      rw [he1, he2]
      exact ⟨rfl, rfl, rfl, hfs0 (l₁ ++ d :: l₂) (l₁ ++ l₂), rfl⟩
  · have he1 : mainRun { a with dbaFiles := l₁ ++ d :: l₂ } w =
        ⟨Outcome.exit 1, (initialObs { a with dbaFiles := l₁ ++ d :: l₂ } w).fs,
         [], [], ["Invalid configuration directory"], [], []⟩ := by
      simp [mainRun, h1]
    have he2 : mainRun { a with dbaFiles := l₁ ++ l₂ } w =
        ⟨Outcome.exit 1, (initialObs { a with dbaFiles := l₁ ++ l₂ } w).fs,
         [], [], ["Invalid configuration directory"], [], []⟩ := by
      simp [mainRun, h1]
    rw [he1, he2]
    exact ⟨rfl, rfl, rfl, hfs0 (l₁ ++ d :: l₂) (l₁ ++ l₂), rfl⟩

/-! ### C7: shape of the derived-variable merge -/

theorem idxOf?_append_left (s : String) (l₁ l₂ : List String) (i : Nat)
    (h : idxOf? s l₁ = some i) : idxOf? s (l₁ ++ l₂) = some i := by
  induction l₁ generalizing i with
  | nil => simp [idxOf?] at h
  | cons x xs ih =>
    simp only [idxOf?, List.cons_append] at h ⊢
    split at h
    · rename_i hx
      rw [if_pos hx]
      exact h
    · rename_i hx
      rw [if_neg hx]
      rcases hm : idxOf? s xs with _ | j
      · rw [hm] at h
        simp at h
      · rw [hm] at h
        simp only [List.append_eq]
        rw [ih j hm]
        simpa using h

theorem idxOf?_lt_length (s : String) (l : List String) (i : Nat)
    (h : idxOf? s l = some i) : i < l.length := by
  induction l generalizing i with
  | nil => simp [idxOf?] at h
  | cons x xs ih =>
    simp only [idxOf?] at h
    split at h
    · simp only [Option.some_inj] at h
      simp only [List.length_cons]
      omega
    · rcases hm : idxOf? s xs with _ | j
      · rw [hm] at h
        simp at h
      · rw [hm] at h
        simp only [Option.map_some', Option.some_inj] at h
        have := ih j hm
        simp only [List.length_cons]
        omega

theorem zipWith_getD {α β γ : Type} (f : α → β → γ) (xs : List α) (ys : List β)
    (i : Nat) (dx : α) (dy : β) (dz : γ) (hx : i < xs.length) (hy : i < ys.length) :
    (List.zipWith f xs ys).getD i dz = f (xs.getD i dx) (ys.getD i dy) := by
  induction xs generalizing ys i with
  | nil => simp at hx
  | cons x xt ih =>
    cases ys with
    | nil => simp at hy
    | cons y yt =>
      cases i with
      | zero => simp [List.getD]
      | succ n =>
        simp only [List.zipWith_cons_cons, List.getD_cons_succ]
        exact ih yt n (by simpa using hx) (by simpa using hy)

/-- The three nested `zipWith`s of `addDerived` collapse to one pointwise
map over aligned rows: set the depth cell in place, then append the
salinity and density cells. -/
theorem derivedRows_eq (phys : Physics) (zi : Nat) (meanLat meanLon : Val)
    (rows ctd : List (List Val)) (hlen : ctd.length = rows.length)
    (hzi : ∀ r ∈ rows, zi < r.length) :
    List.zipWith (fun r v => r.set zi v)
      (List.zipWith (fun r v => r ++ [v])
        (List.zipWith (fun r v => r ++ [v]) rows (ctd.map (salRow phys)))
        (List.zipWith (fun c s => densRow phys c s meanLat meanLon) ctd
          (ctd.map (salRow phys))))
      (ctd.map fun c => depthRow phys c meanLat) =
    List.zipWith (fun r c =>
      (r.set zi (depthRow phys c meanLat) ++ [salRow phys c]) ++
        [densRow phys c (salRow phys c) meanLat meanLon]) rows ctd := by
  induction rows generalizing ctd with
  | nil => simp
  | cons r rt ih =>
    cases ctd with
    | nil => simp at hlen
    | cons c ct =>
      simp only [List.map_cons, List.zipWith_cons_cons]
      have hzr : zi < r.length := hzi r (by simp)
      have hzr1 : zi < (r ++ [salRow phys c]).length := by
        simp only [List.length_append, List.length_cons, List.length_nil]
        omega
      rw [List.set_append_left _ _ hzr1, List.set_append_left _ _ hzr]
      refine congrArg _ (ih ct (by simpa using hlen) ?_)
      intro x hx
      exact hzi x (by simp [hx])

/-- Evaluating `addDerived` under the alignment hypotheses that hold for
the script's frames: `ctd` has one row per source row and every source row
has one cell per sensor. -/
theorem addDerived_eq (phys : Physics) (sensors : List String)
    (rows ctd : List (List Val)) (meanLat meanLon : Val) (zi : Nat)
    (hz : idxOf? "llat_depth" sensors = some zi)
    (hlen : ctd.length = rows.length)
    (hrow : ∀ r ∈ rows, r.length = sensors.length) :
    addDerived phys sensors rows ctd meanLat meanLon =
      some ((sensors ++ ["salinity"]) ++ ["density"],
        List.zipWith (fun r c =>
          (r.set zi (depthRow phys c meanLat) ++ [salRow phys c]) ++
            [densRow phys c (salRow phys c) meanLat meanLon]) rows ctd) := by
  have hz2 : idxOf? "llat_depth" ((sensors ++ ["salinity"]) ++ ["density"]) =
      some zi :=
    idxOf?_append_left _ _ _ _ (idxOf?_append_left _ _ _ _ hz)
  have hzi : ∀ r ∈ rows, zi < r.length := by
    intro r hr
    rw [hrow r hr]
    exact idxOf?_lt_length _ _ _ hz
  simp only [addDerived, hz2]
  rw [derivedRows_eq phys zi meanLat meanLon rows ctd hlen hzi]

/-- C7: Derived-variable merge shape (lines 127-141 of the script).  When
`llat_depth` occurs in the sensor list at position `zi` and the frames are
aligned (one CTD row per source row, one cell per sensor in every source
row), the merge appends exactly the two sensors `salinity` then `density`
at the end of the sensor list; the resulting frame has the same number of
rows, in the same order; row `i` is the original row with the depth value
recomputed in place at position `zi` and the salinity and density cells
appended at the end (so each row grows by exactly two cells); and every
cell other than the `llat_depth` cell and the two appended cells is
unchanged. -/
theorem c7_derived_merge_shape (phys : Physics) (sensors : List String)
    (rows ctd : List (List Val)) (meanLat meanLon : Val) (zi : Nat)
    (hz : idxOf? "llat_depth" sensors = some zi)
    (hlen : ctd.length = rows.length)
    (hrow : ∀ r ∈ rows, r.length = sensors.length) :
    ∃ rowsOut,
      addDerived phys sensors rows ctd meanLat meanLon =
        some (sensors ++ ["salinity", "density"], rowsOut) ∧
      rowsOut.length = rows.length ∧
      (∀ i, i < rows.length →
        rowsOut.getD i [] =
          ((rows.getD i []).set zi (depthRow phys (ctd.getD i []) meanLat) ++
            [salRow phys (ctd.getD i [])]) ++
          [densRow phys (ctd.getD i []) (salRow phys (ctd.getD i []))
            meanLat meanLon]) ∧
      (∀ i, i < rows.length → (rowsOut.getD i []).length = sensors.length + 2) ∧
      (∀ i j, i < rows.length → j < sensors.length → j ≠ zi →
        (rowsOut.getD i []).getD j none = (rows.getD i []).getD j none) := by
  have hmain := addDerived_eq phys sensors rows ctd meanLat meanLon zi hz hlen hrow
  have hzlt : zi < sensors.length := idxOf?_lt_length _ _ _ hz
  refine ⟨List.zipWith (fun r c =>
      (r.set zi (depthRow phys c meanLat) ++ [salRow phys c]) ++
        [densRow phys c (salRow phys c) meanLat meanLon]) rows ctd,
    ?_, ?_, ?_, ?_, ?_⟩
  · rw [hmain, List.append_assoc]
    rfl
  · simp only [List.length_zipWith, hlen, min_self]
  · intro i hi
    exact zipWith_getD _ rows ctd i [] [] [] hi (by omega)
  · intro i hi
    rw [zipWith_getD _ rows ctd i [] [] [] hi (by omega)]
    have hmem : rows.getD i [] ∈ rows := by
      rw [List.getD_eq_getElem?_getD, List.getElem?_eq_getElem hi]
      exact List.getElem_mem hi
    simp only [List.length_append, List.length_set, List.length_cons,
      List.length_nil, hrow _ hmem]
  · intro i j hi hj hne
    rw [zipWith_getD _ rows ctd i [] [] [] hi (by omega)]
    have hmem : rows.getD i [] ∈ rows := by
      rw [List.getD_eq_getElem?_getD, List.getElem?_eq_getElem hi]
      exact List.getElem_mem hi
    have hjr : j < (rows.getD i []).length := by rw [hrow _ hmem]; exact hj
    simp only [List.getD_eq_getElem?_getD] at hjr ⊢
    rw [List.getElem?_append_left (by
      simp only [List.length_append, List.length_set, List.length_cons,
        List.length_nil]
      omega)]
    rw [List.getElem?_append_left (by simp only [List.length_set]; exact hjr)]
    rw [List.getElem?_set_ne (by omega)]

/-! ### Code-bug exhibits and concrete witnesses -/

/-- **C2 (code bug, line 234).** On a run with `--clobber` against a
pre-existing destination file whose profile fails `finish_nc`, the
unconditional `output_nc_files.append(out_nc_file)` (indented outside the
`if nc_file:` guard) records the destination path anyway: the run returns
exit code 0 and prints that path on stdout even though the run placed no
file there (the trace contains no `move` and the placed-artifact list is
empty) — the printed path names the stale pre-existing file, contradicting
the claim that every printed path was produced by the run. -/
theorem c2_stale_path_printed :
    (mainRun argsC2 wC2).outcome = Outcome.exit 0 ∧
    (mainRun argsC2 wC2).stdout = ["/out/g-19700101T000140Z-sbd-profile.nc"] ∧
    (mainRun argsC2 wC2).trace.all notMove = true ∧
    (mainRun argsC2 wC2).finished = [] :=
  ⟨by with_unfolding_all rfl, by with_unfolding_all rfl,
   by with_unfolding_all rfl, by with_unfolding_all rfl⟩

/-- **C3 (code bug, line 234).** On a run whose single profile fails
`finish_nc` with no pre-existing destination file, the stale path appended
at line 234 reaches the final loop, where `os.chmod(output_nc_file, 0o664)`
hits a nonexistent file and raises an uncaught `FileNotFoundError`: the run
crashes instead of returning 0, although none of the five exit-1 conditions
holds (both directories valid, input list nonempty, both validators pass,
`rmtree` succeeds). -/
theorem c3_crash_not_exit :
    (mainRun argsC3 wX).outcome = Outcome.crash ∧
    argsC3.configIsDir = true ∧ argsC3.outputIsDir = true ∧
    argsC3.dbaFiles.isEmpty = false ∧ wX.ctdValid = true ∧
    wX.ngdacValid = true ∧ wX.rmtreeOk = true :=
  ⟨by with_unfolding_all rfl, rfl, rfl, rfl, rfl, rfl, rfl⟩

/-- **C9 counterexample.** In the sample successful run a file is placed
(the trace contains a `move`), yet no `chmod` of any kind occurs before the
first `move`: in particular the staged file never carries mode 0o755 while
being staged — it is created by `mkstemp` with mode 0o600 (384) and first
chmodded only after placement.  This refutes the original claim that the
artifact carries 0o755 before placement. -/
theorem c9_counterexample :
    ((mainRun argsX wX).trace.takeWhile notMove).all
      (fun e => !isChmodEv e) = true ∧
    (mainRun argsX wX).trace.all notMove = false ∧
    Ev.mkstemp (FPath.tmp "g-19700101T000140Z-sbd-profile-0.nc") 384 ∈
      (mainRun argsX wX).trace :=
  ⟨by with_unfolding_all rfl, by with_unfolding_all rfl,
   by with_unfolding_all decide⟩

/-- Concrete instance of C5: with the unreadable dba `dbaBad` inserted
into the input list, outcome and stdout equal those of the run without
it. -/
theorem c5_witness :
    dbaBad.isfile = false ∧
    (([] ++ [dbaX] : List DbaEnv).isEmpty = false) ∧
    (mainRun { argsX with dbaFiles := [] ++ dbaBad :: [dbaX] } wX).outcome =
      (mainRun { argsX with dbaFiles := [] ++ [dbaX] } wX).outcome ∧
    (mainRun { argsX with dbaFiles := [] ++ dbaBad :: [dbaX] } wX).stdout =
      (mainRun { argsX with dbaFiles := [] ++ [dbaX] } wX).stdout :=
  ⟨rfl, rfl,
   ((c5_source_error_skipping argsX wX (initialObs argsX wX) dbaBad
       (Or.inl rfl)).2.2 [] [dbaX] rfl).1,
   ((c5_source_error_skipping argsX wX (initialObs argsX wX) dbaBad
       (Or.inl rfl)).2.2 [] [dbaX] rfl).2.2.1⟩

/-- Concrete instance of C6: a profile whose `init_nc` fails appends
nothing to the output list, and the sample successful run leaves no
staging file behind. -/
theorem c6_witness :
    itvBad.initOk = false ∧
    (stepProfC ctxX obsX itvBad).1.outputs = obsX.outputs ∧
    (mainRun argsX wX).outcome = Outcome.exit 0 ∧
    (mainRun argsX wX).fs
      (FPath.tmp "g-19700101T000140Z-sbd-profile-0.nc") = none :=
  ⟨rfl,
   (c6_profile_error_skipping ctxX obsX itvBad
     (Or.inr (Or.inr (Or.inl rfl)))).1.1,
   by with_unfolding_all rfl,
   (c6_profile_error_skipping ctxX obsX itvBad
     (Or.inr (Or.inr (Or.inl rfl)))).2 argsX wX (by with_unfolding_all rfl)
     "g-19700101T000140Z-sbd-profile-0.nc"⟩

/-- Concrete instance of C7: merging the derived variables into the
one-row sample frame. -/
theorem c7_witness :
    idxOf? "llat_depth" llatSensors = some 4 ∧
    rowsX.length = rowsX.length ∧
    (∀ r ∈ rowsX, r.length = llatSensors.length) ∧
    (∃ rowsOut,
      addDerived physX llatSensors rowsX rowsX (some 2) (some 3) =
        some (llatSensors ++ ["salinity", "density"], rowsOut) ∧
      rowsOut.length = rowsX.length ∧
      (∀ i, i < rowsX.length →
        rowsOut.getD i [] =
          ((rowsX.getD i []).set 4 (depthRow physX (rowsX.getD i []) (some 2)) ++
            [salRow physX (rowsX.getD i [])]) ++
          [densRow physX (rowsX.getD i []) (salRow physX (rowsX.getD i []))
            (some 2) (some 3)]) ∧
      (∀ i, i < rowsX.length →
        (rowsOut.getD i []).length = llatSensors.length + 2) ∧
      (∀ i j, i < rowsX.length → j < llatSensors.length → j ≠ 4 →
        (rowsOut.getD i []).getD j none = (rowsX.getD i []).getD j none)) :=
  ⟨by with_unfolding_all rfl, rfl, by decide,
   c7_derived_merge_shape physX llatSensors rowsX rowsX (some 2) (some 3) 4
     (by with_unfolding_all rfl) rfl (by decide)⟩

/-- Concrete instance of C10: the sample profile with both timestamps
100 s reaches the insertion stage and the claim's boundary properties hold
there. -/
theorem c10_witness :
    nanmean itvX.times = some 100 ∧
    (((obsX.fs (FPath.out (profOutName ctxX 100))).isSome &&
      !ctxX.clobber) = false) ∧
    itvX.initOk = true ∧ itvX.openOk = true ∧
    (((stepProfC ctxX obsX itvX).1.trace.filter isInsertEv =
      obsX.trace.filter isInsertEv ++
      insertBlock ctxX
        (FPath.tmp (profFileBase ctxX 100 ++ "-" ++ toString obsX.counter ++
          ".nc"))
        (pInds ctxX.ts (itvX.times.headD none) (itvX.times.getLastD none))) ∧
     (∀ ts p0 p1 i, i ∈ pInds ts p0 p1 ↔
       i < ts.length ∧ vle p0 (ts.getD i none) = true ∧
         vle (ts.getD i none) p1 = true) ∧
     (∀ ts pa pb b i, i < ts.length → ts.getD i none = some b →
       vle pa (some b) = true → vle (some b) pb = true →
       i ∈ pInds ts pa (some b) ∧ i ∈ pInds ts (some b) pb)) :=
  ⟨by with_unfolding_all rfl, rfl, rfl, rfl,
   c10_inclusive_boundaries ctxX obsX itvX 100 (by with_unfolding_all rfl)
     rfl rfl rfl⟩

/-- Concrete instance of C8: the artifact placed by the sample run carries
the glider-timestamp-extension profile name under the output directory. -/
theorem c8_witness :
    (⟨"/out/g-19700101T000140Z-sbd-profile.nc", 100, "sbd", 100,
      [some 100, some 100]⟩ : FinRec) ∈ (mainRun argsX wX).finished ∧
    (("/out/g-19700101T000140Z-sbd-profile.nc" : String) =
      joinPath argsX.outputPath
        (wX.glider ++ "-" ++ tsToStr (100 : ℚ) ++ "-" ++ "sbd" ++
         "-profile" ++ ".nc") ∧
     ∃ d ∈ argsX.dbaFiles, ("sbd" : String) = d.ext) :=
  ⟨by with_unfolding_all decide,
   c8_output_naming argsX wX
     ⟨"/out/g-19700101T000140Z-sbd-profile.nc", 100, "sbd", 100,
      [some 100, some 100]⟩ (by with_unfolding_all decide)⟩
